import Mathlib

/-!
Verification of the intar-cli repository's natural-language specification
against a shallow embedding of its Rust sources.

Each definition below is translated from a named function of the repository
(crates intar-vm, intar-probes, intar-core).  Strings are modelled as Lean
`String`/`List Char`; machine integers as `Nat`/`Int` with explicit range
conditions where overflow matters; fallible code as `Option`/`Except`.
-/

namespace Intar

/-! ## Character helpers (Rust `char::is_ascii_alphanumeric`,
`char::to_ascii_lowercase`) -/

/-- Rust `ch.is_ascii_alphanumeric()`. -/
def isAsciiAlphanumeric (c : Char) : Bool :=
  (97 ≤ c.toNat && c.toNat ≤ 122) || (65 ≤ c.toNat && c.toNat ≤ 90) ||
    (48 ≤ c.toNat && c.toNat ≤ 57)

/-- Rust `ch.to_ascii_lowercase()`. -/
def toAsciiLowercase (c : Char) : Char :=
  if 65 ≤ c.toNat && c.toNat ≤ 90 then Char.ofNat (c.toNat + 32) else c

/-- ASCII lowercasing of a whole string.  Models Rust `str::to_lowercase`
restricted to ASCII input (the Unicode special cases do not matter for the
ASCII step names the scenarios use). -/
def toLowerAscii (s : String) : String :=
  String.mk (s.toList.map toAsciiLowercase)

/-- Rust `str::starts_with` on character lists: does `s` begin with `p`? -/
def listStartsWith : List Char → List Char → Bool
  | _, [] => true
  | [], _ :: _ => false
  | c :: cs, p :: ps => c = p && listStartsWith cs ps

/-- Rust `str::contains(pat)` on character lists (substring search). -/
def containsSub : List Char → List Char → Bool
  | [], pat => listStartsWith [] pat
  | c :: rest, pat => listStartsWith (c :: rest) pat || containsSub rest pat

/-! ## `vm_steps.rs`: slugify, hidden-step classification, script rendering -/

/-- The per-character normalization inside `slugify`'s loop
(`crates/intar-vm/src/vm_steps.rs`): ASCII alphanumerics are lowercased,
`-` and `_` are kept, everything else is dropped (turning into at most one
separating dash). -/
def slugNormalize (c : Char) : Option Char :=
  if isAsciiAlphanumeric c then some (toAsciiLowercase c)
  else if c = '-' || c = '_' then some c
  else none

/-- The imperative loop of `slugify`: `out` is the output built so far and
`lastDash` the `last_dash` flag. -/
def slugifyLoop : List Char → Bool → List Char → List Char
  | out, _, [] => out
  | out, lastDash, c :: rest =>
    match slugNormalize c with
    | some ch => slugifyLoop (out ++ [ch]) false rest
    | none =>
      if out.isEmpty || lastDash then slugifyLoop out lastDash rest
      else slugifyLoop (out ++ ['-']) true rest

/-- The final `while out.ends_with('-') { out.pop(); }` of `slugify`. -/
def trimTrailingDashes (l : List Char) : List Char :=
  (l.reverse.dropWhile (fun c => c = '-')).reverse

/-- `slugify` from `crates/intar-vm/src/vm_steps.rs`. -/
def slugify (input : String) : String :=
  let out := trimTrailingDashes (slugifyLoop [] false input.toList)
  if out.isEmpty then "step" else String.mk out

/-- `SystemctlAction` from intar-core. -/
inductive SystemctlAction where
  | start | stop | restart | enable | disable | enableNow
deriving DecidableEq, Repr

/-- `VmAction` from intar-core (the K8s manifest variants, which only emit
`kubectl apply` here-docs and do not affect step classification, paths or
the claims below, are not modelled). -/
inductive VmAction where
  | fileDelete (path : String)
  | fileWrite (path content : String) (permissions : Option String)
  | fileReplace (path pattern replacement : String) (regex : Bool)
  | systemctl (unit : String) (action : SystemctlAction)
  | command (cmd : String)
deriving DecidableEq, Repr

/-- `VmStep` from intar-core. -/
structure VmStep where
  name : String
  actions : List VmAction
deriving DecidableEq, Repr

/-- `is_hidden_step` from `crates/intar-vm/src/vm_steps.rs`:
lowercase the name, then test
`starts_with("break") || contains("break-") || contains("break_")`. -/
def is_hidden_step (step : VmStep) : Bool :=
  let name := toLowerAscii step.name
  listStartsWith name.toList "break".toList ||
    containsSub name.toList "break-".toList ||
    containsSub name.toList "break_".toList

/-- `shell_quote` from `crates/intar-vm/src/vm_steps.rs`: wrap in single
quotes, escaping embedded single quotes. -/
def shell_quote (s : String) : String :=
  "\x27" ++ String.join (s.toList.map fun c =>
    if c = '\x27' then "\x27\\\x27\x27" else String.singleton c) ++ "\x27"

/-- Lowercase hex digit of `n % 16` (for serde's `\u00..` escapes). -/
def hexDigit (n : Nat) : Char :=
  if n % 16 < 10 then Char.ofNat (48 + n % 16) else Char.ofNat (87 + n % 16)

/-- `serde_json::to_string` applied to a Rust string: the JSON string
literal with serde's escaping (used by `render_file_replace`). -/
def jsonStringLit (s : String) : String :=
  "\"" ++ String.join (s.toList.map fun c =>
    if c = '"' then "\\\""
    else if c = '\\' then "\\\\"
    else if c = '\x08' then "\\b"
    else if c = '\x0c' then "\\f"
    else if c = '\n' then "\\n"
    else if c = '\x0d' then "\\r"
    else if c = '\t' then "\\t"
    else if c.toNat < 32 then
      "\\u00" ++ String.singleton (hexDigit (c.toNat / 16)) ++
        String.singleton (hexDigit c.toNat)
    else String.singleton c) ++ "\""

/-- `render_file_delete`. -/
def render_file_delete (path : String) : String :=
  "rm -f -- " ++ shell_quote path ++ "\n"

/-- `render_file_write`. -/
def render_file_write (step_slug : String) (idx : Nat)
    (path content : String) (permissions : Option String) : String :=
  let marker := "INTAR_EOF_" ++ step_slug ++ "_" ++ toString idx
  "install -d -m 0755 -- \"$(dirname -- " ++ shell_quote path ++ ")\"\n" ++
  "cat <<\x27" ++ marker ++ "\x27 > " ++ shell_quote path ++ "\n" ++
  content ++ (if content.endsWith "\n" then "" else "\n") ++
  marker ++ "\n" ++
  (match permissions with
   | some perm => "chmod " ++ perm ++ " -- " ++ shell_quote path ++ "\n"
   | none => "")

/-- `render_file_replace` (a python3 here-doc). -/
def render_file_replace (path pattern replacement : String) (regex : Bool) :
    String :=
  "python3 - <<\x27PY\x27\n" ++
  "from pathlib import Path\n" ++
  "import re\n" ++
  "path = " ++ jsonStringLit path ++ "\n" ++
  "pattern = " ++ jsonStringLit pattern ++ "\n" ++
  "replacement = " ++ jsonStringLit replacement ++ "\n" ++
  "data = Path(path).read_text(encoding=\x27utf-8\x27)\n" ++
  (if regex then
    "new = re.sub(pattern, replacement, data, flags=re.MULTILINE)\n"
   else
    "new = data.replace(pattern, replacement)\n") ++
  "Path(path).write_text(new, encoding=\x27utf-8\x27)\n" ++
  "PY\n"

/-- `render_systemctl`. -/
def render_systemctl (unit : String) (action : SystemctlAction) : String :=
  let act := match action with
    | .start => "start"
    | .stop => "stop"
    | .restart => "restart"
    | .enable => "enable"
    | .disable => "disable"
    | .enableNow => "enable --now"
  "systemctl " ++ act ++ " " ++ shell_quote unit ++ "\n"

/-- `render_command`. -/
def render_command (cmd : String) : String :=
  "\n" ++ cmd ++ (if cmd.endsWith "\n" then "" else "\n")

/-- `render_action` (dispatch over the modelled `VmAction` variants). -/
def render_action (step_slug : String) (idx : Nat) : VmAction → String
  | .fileDelete path => render_file_delete path
  | .fileWrite path content permissions =>
      render_file_write step_slug idx path content permissions
  | .fileReplace path pattern replacement regex =>
      render_file_replace path pattern replacement regex
  | .systemctl unit action => render_systemctl unit action
  | .command cmd => render_command cmd

/-- The `for (idx, action) in step.actions.iter().enumerate()` loop of
`render_step_script`. -/
def renderActionsFrom (step_slug : String) : Nat → List VmAction → String
  | _, [] => ""
  | idx, a :: rest =>
      render_action step_slug idx a ++ renderActionsFrom step_slug (idx + 1) rest

/-- `render_step_header`. -/
def render_step_header (vm_slug step_slug : String) (hidden : Bool) : String :=
  "#!/usr/bin/env bash\n" ++ "set -euo pipefail\n" ++
  (if hidden then
    "trap \x27rm -f -- \"$0\"\x27 EXIT\n" ++ "exec >/dev/null 2>&1\n"
   else
    "LOG_DIR=/var/log/intar\n" ++ "mkdir -p \"$LOG_DIR\"\n" ++
    "exec >\"$LOG_DIR/step-" ++ vm_slug ++ "-" ++ step_slug ++ ".log\" 2>&1\n" ++
    "echo \"[intar] step " ++ vm_slug ++ "/" ++ step_slug ++ " starting\"\n")

/-- `render_step_footer`. -/
def render_step_footer (vm_slug step_slug : String) (hidden : Bool) : String :=
  if hidden then ""
  else "echo \"[intar] step " ++ vm_slug ++ "/" ++ step_slug ++ " complete\"\n"

/-- `render_step_script` (`Writes to a `String` cannot fail, so the
`Result` in the Rust signature is always `Ok`). -/
def render_step_script (vm_slug step_slug : String) (step : VmStep)
    (hidden : Bool) : String :=
  render_step_header vm_slug step_slug hidden ++
  renderActionsFrom step_slug 0 step.actions ++
  render_step_footer vm_slug step_slug hidden

/-- `WriteFile` from intar-core's `CloudInitConfig`. -/
structure WriteFile where
  path : String
  content : String
  permissions : Option String
deriving DecidableEq, Repr

/-- `CloudInitConfig` from intar-core (fields used by
`apply_vm_steps_to_cloud_init`). -/
structure CloudInitConfig where
  packages : List String
  network_config : Option String
  runcmd : Option String
  write_files : List WriteFile
deriving DecidableEq, Repr

/-- `append_runcmd_line`. -/
def append_runcmd_line (runcmd line : String) : String :=
  (if ¬runcmd.isEmpty ∧ ¬runcmd.endsWith "\n" then runcmd ++ "\n" else runcmd)
    ++ line ++ "\n"

/-- The `for step in steps` loop of `apply_vm_steps_to_cloud_init`,
threading the accumulated runcmd text and `write_files`. -/
def applyStepsLoop (vm_slug : String) :
    String → List WriteFile → List VmStep → String × List WriteFile
  | runcmd, files, [] => (runcmd, files)
  | runcmd, files, step :: rest =>
    let step_slug := slugify step.name
    let hidden := is_hidden_step step
    let script_path :=
      if hidden then "/run/intar-step-" ++ vm_slug ++ "-" ++ step_slug ++ ".sh"
      else "/usr/local/bin/intar-step-" ++ vm_slug ++ "-" ++ step_slug ++ ".sh"
    let script := render_step_script vm_slug step_slug step hidden
    let files2 := files ++ [⟨script_path, script, some "0755"⟩]
    let line :=
      if hidden then "bash " ++ script_path
      else "cloud-init-per once intar-step-" ++ vm_slug ++ "-" ++ step_slug ++
        " " ++ script_path
    applyStepsLoop vm_slug (append_runcmd_line runcmd line) files2 rest

/-- `apply_vm_steps_to_cloud_init` from `crates/intar-vm/src/vm_steps.rs`. -/
def apply_vm_steps_to_cloud_init (vm_name : String) (steps : List VmStep)
    (config : CloudInitConfig) : CloudInitConfig :=
  if steps.isEmpty then config
  else
    let vm_slug := slugify vm_name
    let acc := applyStepsLoop vm_slug (config.runcmd.getD "") config.write_files steps
    { config with runcmd := some acc.1, write_files := acc.2 }

/-! ## `lan_switch.rs`: the userspace L2 switch -/

/-- Association-list insert with overwrite, modelling
`HashMap::insert` / `serde_json::Map::insert`. -/
def mapInsert {κ α : Type} [DecidableEq κ] (k : κ) (v : α) :
    List (κ × α) → List (κ × α)
  | [] => [(k, v)]
  | (k0, v0) :: rest =>
      if k0 = k then (k, v) :: rest else (k0, v0) :: mapInsert k v rest

/-- Peers are `SocketAddr` values; only equality is used, so they are
modelled as naturals. -/
abbrev Peer := Nat

/-- A received UDP datagram: the raw frame bytes and the sender address. -/
structure Datagram where
  frame : List Nat
  src_addr : Peer
deriving DecidableEq, Repr

/-- MAC learning table (`mac_table: HashMap<[u8; 6], SocketAddr>`). -/
abbrev MacTable := List (List Nat × Peer)

/-- `dst.iter().all(|b| *b == 0xff)`. -/
def isBroadcastMac (dst : List Nat) : Bool := dst.all (fun b => b = 255)

/-- `(dst[0] & 0x01) == 0x01`. -/
def isMulticastMac (dst : List Nat) : Bool :=
  match dst with
  | b :: _ => b &&& 1 = 1
  | [] => false

/-- One iteration of the `run_switch` receive loop
(`crates/intar-vm/src/lan_switch.rs`): frames shorter than 14 bytes are
dropped; otherwise the source MAC is learned, broadcast/multicast frames
are flooded to every peer except the sender, known unicast destinations
get the frame directly (unless that would echo it back to the sender), and
unknown destinations are flooded.  Returns the updated table and the list
of `(frame, peer)` datagrams sent. -/
def switchStep (peers : List Peer) (tbl : MacTable) (d : Datagram) :
    MacTable × List (List Nat × Peer) :=
  if d.frame.length < 14 then (tbl, [])
  else
    let dst := d.frame.take 6
    let src := (d.frame.drop 6).take 6
    let tbl2 := mapInsert src d.src_addr tbl
    if isBroadcastMac dst || isMulticastMac dst then
      (tbl2, (peers.filter (fun p => p ≠ d.src_addr)).map (fun p => (d.frame, p)))
    else
      match tbl2.lookup dst with
      | some target =>
          (tbl2, if target ≠ d.src_addr then [(d.frame, target)] else [])
      | none =>
          (tbl2, (peers.filter (fun p => p ≠ d.src_addr)).map (fun p => (d.frame, p)))

/-- The `run_switch` loop over a finite sequence of received datagrams,
accumulating all sends. -/
def runSwitch (peers : List Peer) :
    MacTable → List Datagram → MacTable × List (List Nat × Peer)
  | tbl, [] => (tbl, [])
  | tbl, d :: rest =>
    let s := switchStep peers tbl d
    let r := runSwitch peers s.1 rest
    (r.1, s.2 ++ r.2)

/-! ## `scenario_runner.rs`: management IPs and checkpoint coordination -/

/-- `ScenarioRunner::mgmt_ip`: `u32::try_from(vm_index)` then
`100u32.checked_add(idx).filter(|octet| *octet <= 254)`.  Both failure
branches produce the same configuration error. -/
def mgmt_ip (vm_index : Nat) : Except String String :=
  if vm_index < 2 ^ 32 then
    if 100 + vm_index ≤ 254 then
      Except.ok ("10.0.2." ++ toString (100 + vm_index))
    else Except.error "Too many VMs for management IP addressing"
  else Except.error "Too many VMs for management IP addressing"

/-- Per-VM behaviour of the three QMP commands `save_checkpoint` issues
(`stop`, `snapshot-save`, `cont`): whether each succeeds on that VM. -/
structure VmBehavior where
  name : String
  pauseOk : Bool
  saveOk : Bool
  resumeOk : Bool
deriving DecidableEq, Repr

/-- QMP commands issued by `ScenarioRunner::save_checkpoint`, in issue
order. -/
inductive CkEvent where
  | pauseCmd (vm : String)
  | saveCmd (vm : String) (tag : String)
  | resumeCmd (vm : String)
deriving DecidableEq, Repr

/-- `try_join_all(self.vms.values().map(QemuInstance::pause))`: every
future is started, so the pause command is issued to every VM; the joined
result is `Ok` iff all succeed, otherwise an error (first failing VM in
iteration order). -/
def pauseAll (vms : List VmBehavior) : List CkEvent × Option String :=
  (vms.map (fun v => CkEvent.pauseCmd v.name),
   (vms.find? (fun v => !v.pauseOk)).map (fun v => "pause failed: " ++ v.name))

/-- `try_join_all(self.vms.values().map(QemuInstance::resume))`, same
shape as `pauseAll`. -/
def resumeAll (vms : List VmBehavior) : List CkEvent × Option String :=
  (vms.map (fun v => CkEvent.resumeCmd v.name),
   (vms.find? (fun v => !v.resumeOk)).map (fun v => "resume failed: " ++ v.name))

/-- The sequential `for (vm_name, vm) in &self.vms { vm.save_checkpoint(name).await?; }`
block: saves are issued one VM at a time and stop at the first failure. -/
def saveSeq (tag : String) : List VmBehavior → List CkEvent × Option String
  | [] => ([], none)
  | v :: rest =>
    if v.saveOk then
      let r := saveSeq tag rest
      (CkEvent.saveCmd v.name tag :: r.1, r.2)
    else ([CkEvent.saveCmd v.name tag], some ("save failed: " ++ v.name))

/-- `ScenarioRunner::save_checkpoint` (`crates/intar-vm/src/scenario_runner.rs`):
pause all VMs; on pause failure resume all (ignoring resume errors) and
return the pause error; otherwise run the per-VM snapshot saves, then
resume all VMs, and surface the snapshot error first, else the resume
error.  Returns the trace of issued QMP commands and the overall result
(`none` = `Ok`). -/
def save_checkpoint (vms : List VmBehavior) (tag : String) :
    List CkEvent × Option String :=
  let p := pauseAll vms
  match p.2 with
  | some e =>
      let r := resumeAll vms
      (p.1 ++ r.1, some e)
  | none =>
      let s := saveSeq tag vms
      let r := resumeAll vms
      (p.1 ++ s.1 ++ r.1, s.2.orElse (fun _ => r.2))

/-! ## `qemu.rs`: QMP response demultiplexing -/

/-- A parsed QMP JSON line, abstracted to its top-level keys plus an
opaque payload used only to distinguish messages. -/
structure QmpMsg where
  keys : List String
  payload : Nat
deriving DecidableEq, Repr

/-- `message.get(k).is_some()`. -/
def QmpMsg.hasKey (m : QmpMsg) (k : String) : Bool := m.keys.contains k

/-- One item of the QMP line stream: a line that parses to a JSON message,
or a line that is not valid JSON (`read_qmp_message`'s parse error). -/
inductive QmpItem where
  | msg (m : QmpMsg)
  | badLine
deriving DecidableEq, Repr

/-- Errors surfaced by `read_qmp_response` via `read_qmp_message`. -/
inductive QmpError where
  | eof
  | invalidJson
deriving DecidableEq, Repr

/-- `QemuInstance::read_qmp_response` (`crates/intar-vm/src/qemu.rs`) over
the stream of lines remaining on the socket: `read_qmp_message` errors on
end of stream (`Unexpected EOF`) and on unparsable lines; any message with
an `event` key is skipped; the first message with a `return` or `error`
key is the response; anything else is silently skipped. -/
def read_qmp_response : List QmpItem → Except QmpError QmpMsg
  | [] => Except.error QmpError.eof
  | QmpItem.badLine :: _ => Except.error QmpError.invalidJson
  | QmpItem.msg m :: rest =>
    if m.hasKey "event" then read_qmp_response rest
    else if m.hasKey "return" || m.hasKey "error" then Except.ok m
    else read_qmp_response rest

/-! ## `intar-probes`: probe specifications and their JSON encoding -/

/-- `ServiceState`. -/
inductive ServiceState where
  | running | stopped | enabled | disabled
deriving DecidableEq, Repr

/-- `PortState`. -/
inductive PortState where
  | listening | closed
deriving DecidableEq, Repr

/-- `Protocol` (`#[default] Tcp`). -/
inductive Protocol where
  | tcp | udp
deriving DecidableEq, Repr

/-- `ReachabilityState`. -/
inductive ReachabilityState where
  | reachable | unreachable
deriving DecidableEq, Repr

/-- `ProbeSpec` from `crates/intar-probes/src/spec.rs`.  Machine integers
(`u16`, `u32`, `u64`, `i32`) are carried as `Nat`/`Int`; their ranges are
enforced where the JSON decoder models serde's range checks. -/
inductive ProbeSpec where
  | fileContent (path : String) (contains : Option String) (regex : Option String)
  | fileExists (path : String) (exists_ : Bool)
  | service (service : String) (state : ServiceState)
  | port (port : Nat) (state : PortState) (protocol : Protocol)
  | command (cmd : String) (exit_code : Int) (stdout_contains : Option String)
  | http (url : String) (status : Nat) (body_contains : Option String)
  | k8sNodesReady (expected_ready : Nat) (kubeconfig : Option String)
      (context : Option String)
  | k8sEndpointsNonEmpty (namespace_ : String) (name : String)
      (kubeconfig : Option String) (context : Option String)
  | tcpPing (host : String) (port : Nat) (timeout_ms : Nat)
      (state : ReachabilityState)
deriving DecidableEq, Repr

/-- Flat JSON values occurring in probe configs: strings, booleans and
numbers (JSON numbers carried as integers). -/
inductive JVal where
  | jstr (s : String)
  | jbool (b : Bool)
  | jnum (n : Int)
deriving DecidableEq, Repr

/-- A flat JSON object as an association list (serde_json `Map`). -/
abbrev JObj := List (String × JVal)

/-- serde's snake_case encoding of `ServiceState`. -/
def encodeServiceState : ServiceState → String
  | .running => "running" | .stopped => "stopped"
  | .enabled => "enabled" | .disabled => "disabled"

/-- serde's decoding of `ServiceState`. -/
def decodeServiceState : String → Option ServiceState
  | "running" => some .running | "stopped" => some .stopped
  | "enabled" => some .enabled | "disabled" => some .disabled
  | _ => none

/-- serde's snake_case encoding of `PortState`. -/
def encodePortState : PortState → String
  | .listening => "listening" | .closed => "closed"

/-- serde's decoding of `PortState`. -/
def decodePortState : String → Option PortState
  | "listening" => some .listening | "closed" => some .closed
  | _ => none

/-- serde's snake_case encoding of `Protocol`. -/
def encodeProtocol : Protocol → String
  | .tcp => "tcp" | .udp => "udp"

/-- serde's decoding of `Protocol`. -/
def decodeProtocol : String → Option Protocol
  | "tcp" => some .tcp | "udp" => some .udp | _ => none

/-- serde's snake_case encoding of `ReachabilityState`. -/
def encodeReachabilityState : ReachabilityState → String
  | .reachable => "reachable" | .unreachable => "unreachable"

/-- serde's decoding of `ReachabilityState`. -/
def decodeReachabilityState : String → Option ReachabilityState
  | "reachable" => some .reachable | "unreachable" => some .unreachable
  | _ => none

/-- `default_protocol()` = `Protocol::Tcp`. -/
def default_protocol : Protocol := Protocol.tcp

/-- `default_tcp_ping_port()` = 1. -/
def default_tcp_ping_port : Nat := 1

/-- `default_tcp_ping_timeout_ms()` = 2000. -/
def default_tcp_ping_timeout_ms : Nat := 2000

/-- `default_tcp_ping_state()` = `Reachable`. -/
def default_tcp_ping_state : ReachabilityState := ReachabilityState.reachable

/-- An optional string field under `skip_serializing_if = "Option::is_none"`:
emitted only when present. -/
def optField (k : String) : Option String → JObj
  | some s => [(k, JVal.jstr s)]
  | none => []

/-- serde serialization of `ProbeSpec` (internally tagged with `type`,
snake_case variant and field names, `None` options skipped). -/
def encodeProbeSpec : ProbeSpec → JObj
  | .fileContent path contains regex =>
      [("type", .jstr "file_content"), ("path", .jstr path)] ++
        optField "contains" contains ++ optField "regex" regex
  | .fileExists path e =>
      [("type", .jstr "file_exists"), ("path", .jstr path), ("exists", .jbool e)]
  | .service svc state =>
      [("type", .jstr "service"), ("service", .jstr svc),
       ("state", .jstr (encodeServiceState state))]
  | .port p state protocol =>
      [("type", .jstr "port"), ("port", .jnum p),
       ("state", .jstr (encodePortState state)),
       ("protocol", .jstr (encodeProtocol protocol))]
  | .command cmd exit_code stdout_contains =>
      [("type", .jstr "command"), ("cmd", .jstr cmd),
       ("exit_code", .jnum exit_code)] ++
        optField "stdout_contains" stdout_contains
  | .http url status body_contains =>
      [("type", .jstr "http"), ("url", .jstr url), ("status", .jnum status)] ++
        optField "body_contains" body_contains
  | .k8sNodesReady expected_ready kubeconfig context =>
      [("type", .jstr "k8s_nodes_ready"), ("expected_ready", .jnum expected_ready)]
        ++ optField "kubeconfig" kubeconfig ++ optField "context" context
  | .k8sEndpointsNonEmpty ns name kubeconfig context =>
      [("type", .jstr "k8s_endpoints_non_empty"), ("namespace", .jstr ns),
       ("name", .jstr name)] ++
        optField "kubeconfig" kubeconfig ++ optField "context" context
  | .tcpPing host p timeout_ms state =>
      [("type", .jstr "tcp_ping"), ("host", .jstr host), ("port", .jnum p),
       ("timeout_ms", .jnum timeout_ms),
       ("state", .jstr (encodeReachabilityState state))]

/-- Required string field. -/
def getStr (o : JObj) (k : String) : Option String :=
  match o.lookup k with
  | some (JVal.jstr s) => some s
  | _ => none

/-- Required bool field. -/
def getBool (o : JObj) (k : String) : Option Bool :=
  match o.lookup k with
  | some (JVal.jbool b) => some b
  | _ => none

/-- Required unsigned field of width `w` bits (serde rejects out-of-range
numbers). -/
def getUInt (o : JObj) (k : String) (w : Nat) : Option Nat :=
  match o.lookup k with
  | some (JVal.jnum n) => if 0 ≤ n ∧ n < 2 ^ w then some n.toNat else none
  | _ => none

/-- Required `i32` field. -/
def getI32 (o : JObj) (k : String) : Option Int :=
  match o.lookup k with
  | some (JVal.jnum n) =>
      if -(2 ^ 31) ≤ n ∧ n < 2 ^ 31 then some n else none
  | _ => none

/-- Optional string field: absent means `None`; a present field of the
wrong type is a deserialization error. -/
def getOptStr (o : JObj) (k : String) : Option (Option String) :=
  match o.lookup k with
  | none => some none
  | some (JVal.jstr s) => some (some s)
  | some _ => none

/-- Unsigned field with a serde `default`: absent yields the default. -/
def getUIntD (o : JObj) (k : String) (w : Nat) (d : Nat) : Option Nat :=
  match o.lookup k with
  | none => some d
  | some (JVal.jnum n) => if 0 ≤ n ∧ n < 2 ^ w then some n.toNat else none
  | some _ => none

/-- serde's visitor for the `file_content` variant. -/
def decodeFileContent (o : JObj) : Option ProbeSpec :=
  match getStr o "path", getOptStr o "contains", getOptStr o "regex" with
  | some path, some contains, some regex =>
      some (.fileContent path contains regex)
  | _, _, _ => none

/-- serde's visitor for the `file_exists` variant. -/
def decodeFileExists (o : JObj) : Option ProbeSpec :=
  match getStr o "path", getBool o "exists" with
  | some path, some e => some (.fileExists path e)
  | _, _ => none

/-- serde's visitor for the `service` variant. -/
def decodeService (o : JObj) : Option ProbeSpec :=
  match getStr o "service", (getStr o "state").bind decodeServiceState with
  | some svc, some st => some (.service svc st)
  | _, _ => none

/-- serde's visitor for the `port` variant (defaulted `protocol`). -/
def decodePort (o : JObj) : Option ProbeSpec :=
  match getUInt o "port" 16, (getStr o "state").bind decodePortState with
  | some p, some st =>
      match o.lookup "protocol" with
      | none => some (.port p st default_protocol)
      | some (JVal.jstr s) =>
          (decodeProtocol s).map (fun proto => .port p st proto)
      | some _ => none
  | _, _ => none

/-- serde's visitor for the `command` variant. -/
def decodeCommand (o : JObj) : Option ProbeSpec :=
  match getStr o "cmd", getI32 o "exit_code", getOptStr o "stdout_contains" with
  | some cmd, some ec, some sc => some (.command cmd ec sc)
  | _, _, _ => none

/-- serde's visitor for the `http` variant. -/
def decodeHttp (o : JObj) : Option ProbeSpec :=
  match getStr o "url", getUInt o "status" 16, getOptStr o "body_contains" with
  | some url, some st, some bc => some (.http url st bc)
  | _, _, _ => none

/-- serde's visitor for the `k8s_nodes_ready` variant. -/
def decodeK8sNodesReady (o : JObj) : Option ProbeSpec :=
  match getUInt o "expected_ready" 32, getOptStr o "kubeconfig",
      getOptStr o "context" with
  | some er, some kc, some ctx => some (.k8sNodesReady er kc ctx)
  | _, _, _ => none

/-- serde's visitor for the `k8s_endpoints_non_empty` variant (and its
`k8s_endpoints_nonempty` alias). -/
def decodeK8sEndpointsNonEmpty (o : JObj) : Option ProbeSpec :=
  match getStr o "namespace", getStr o "name", getOptStr o "kubeconfig",
      getOptStr o "context" with
  | some ns, some nm, some kc, some ctx =>
      some (.k8sEndpointsNonEmpty ns nm kc ctx)
  | _, _, _, _ => none

/-- serde's visitor for the `tcp_ping` variant (defaulted `port`,
`timeout_ms` and `state`). -/
def decodeTcpPing (o : JObj) : Option ProbeSpec :=
  match getStr o "host", getUIntD o "port" 16 default_tcp_ping_port,
      getUIntD o "timeout_ms" 64 default_tcp_ping_timeout_ms with
  | some host, some p, some tm =>
      match o.lookup "state" with
      | none => some (.tcpPing host p tm default_tcp_ping_state)
      | some (JVal.jstr s) =>
          (decodeReachabilityState s).map (fun st => .tcpPing host p tm st)
      | some _ => none
  | _, _, _ => none

/-- serde deserialization of `ProbeSpec` from a flat JSON object: read the
`type` tag and dispatch to the variant's visitor (snake_case names, with
the `k8s_endpoints_nonempty` alias); unknown tags fail. -/
def decodeProbeSpec (o : JObj) : Option ProbeSpec :=
  match getStr o "type" with
  | none => none
  | some t =>
    if t = "file_content" then decodeFileContent o
    else if t = "file_exists" then decodeFileExists o
    else if t = "service" then decodeService o
    else if t = "port" then decodePort o
    else if t = "command" then decodeCommand o
    else if t = "http" then decodeHttp o
    else if t = "k8s_nodes_ready" then decodeK8sNodesReady o
    else if t = "k8s_endpoints_non_empty" ∨ t = "k8s_endpoints_nonempty" then
      decodeK8sEndpointsNonEmpty o
    else if t = "tcp_ping" then decodeTcpPing o
    else none

/-- The machine-integer range invariants of a `ProbeSpec` value (always
true of values produced by the Rust types `u16`/`u32`/`u64`/`i32`). -/
def ProbeSpec.wf : ProbeSpec → Prop
  | .port p _ _ => p < 2 ^ 16
  | .http _ status _ => status < 2 ^ 16
  | .k8sNodesReady er _ _ => er < 2 ^ 32
  | .command _ ec _ => -(2 ^ 31) ≤ ec ∧ ec < 2 ^ 31
  | .tcpPing _ p tm _ => p < 2 ^ 16 ∧ tm < 2 ^ 64
  | _ => True

instance : DecidablePred ProbeSpec.wf := fun spec => by
  unfold ProbeSpec.wf
  cases spec <;> infer_instance

/-! ## `serial.rs`: the agent request/response exchange -/

/-- `ProbeResult` from intar-probes. -/
structure ProbeResult where
  id : String
  passed : Bool
  message : String
deriving DecidableEq, Repr

/-- `Response` from `crates/intar-probes/src/protocol.rs`. -/
inductive Response where
  | probeResult (id : String) (passed : Bool) (message : String)
  | allResults (results : List ProbeResult)
  | pong (uptime_secs : Nat)
  | respError (message : String)
deriving DecidableEq, Repr

/-- `ExpectedResponse` from `crates/intar-vm/src/serial.rs`. -/
inductive ExpectedResponse where
  | pong | probeResult | allResults
deriving DecidableEq, Repr

/-- `ExpectedResponse::matches`. -/
def ExpectedResponse.matches : ExpectedResponse → Response → Bool
  | .pong, .pong _ => true
  | .probeResult, .probeResult _ _ _ => true
  | .allResults, .allResults _ => true
  | _, _ => false

/-- What one `read_line` call on the agent stream can produce once it
completes: end of stream, an I/O error, a line that trims to empty, a line
that is not valid JSON, or a line parsing to a `Response`. -/
inductive LineEv where
  | eofLine
  | ioErr
  | blank
  | malformed
  | msg (r : Response)
deriving DecidableEq, Repr

/-- Results of `AgentConnection::send_request_expect`'s receive loop. -/
inductive RecvResult where
  | ok (r : Response)
  | errSerial (message : String)
  | errTimeout
  | errParse
deriving DecidableEq, Repr

/-- The receive loop of `AgentConnection::send_request_expect`
(`crates/intar-vm/src/serial.rs`).  Time is in whole seconds: `t` is the
elapsed time since the 30-second deadline was armed, and the stream is a
list of `(cost, event)` pairs, the read completing `cost` seconds after it
starts.  At each turn the loop first fails with a timeout if the deadline
has passed (`remaining.is_zero()`), then reads with `timeout(remaining, ..)`
— failing with a timeout if the read does not complete in time — then
handles the line: EOF and I/O errors are serial errors, blank lines are
skipped, unparsable lines are serde errors, an `error` response is
returned as a serial failure, a response matching the request's tag is
returned, and any other response is skipped.  An exhausted stream means no
further line ever arrives, so the deadline fires. -/
def recvLoop (expected : ExpectedResponse) :
    Nat → List (Nat × LineEv) → RecvResult
  | _, [] => RecvResult.errTimeout
  | t, (c, ev) :: rest =>
    if 30 ≤ t then RecvResult.errTimeout
    else if 30 - t < c then RecvResult.errTimeout
    else
      match ev with
      | .eofLine => RecvResult.errSerial "Unexpected EOF reading agent response"
      | .ioErr => RecvResult.errSerial "Failed to read response"
      | .blank => recvLoop expected (t + c) rest
      | .malformed => RecvResult.errParse
      | .msg (.respError m) => RecvResult.errSerial m
      | .msg r =>
          if expected.matches r then RecvResult.ok r
          else recvLoop expected (t + c) rest

/-! ## `scenario_runner.rs`: probe dispatch and scenario completion -/

/-- `ProbePhase` from intar-core. -/
inductive ProbePhase where
  | boot | scenario
deriving DecidableEq, Repr

/-- `ScenarioState` from `crates/intar-vm/src/state.rs`. -/
inductive ScenarioState where
  | initializing | running | completed | error
deriving DecidableEq, Repr

/-- `ProbeDefinition` from intar-core (name key lives in the scenario's
probes map). -/
structure ProbeDefinition where
  probe_type : String
  phase : ProbePhase
  config : JObj
deriving DecidableEq, Repr

/-- `VmDefinition` from intar-core (fields used by probe dispatch). -/
structure VmDefinition where
  name : String
  probes : List String
deriving DecidableEq, Repr

/-- `Scenario` from intar-core (fields used by probe dispatch). -/
structure Scenario where
  probes : List (String × ProbeDefinition)
  vms : List VmDefinition
deriving DecidableEq, Repr

/-- `ProbeResult::fail`. -/
def ProbeResult.fail (id message : String) : ProbeResult :=
  ⟨id, false, message⟩

/-- `ProbeSpec::from_definition`: insert the `type` tag into a clone of
the config map and deserialize. -/
def from_definition (probe_type : String) (config : JObj) : Option ProbeSpec :=
  decodeProbeSpec (mapInsert "type" (JVal.jstr probe_type) config)

/-- Per-VM probe results (`HashMap<String, ProbeResult>`). -/
abbrev VmResults := List (String × ProbeResult)

/-- `probe_results: HashMap<String, HashMap<String, ProbeResult>>`. -/
abbrev ProbeResults := List (String × VmResults)

/-- The probe names the scenario assigns to the VM named `vmName`
(`self.scenario.vms.iter().find(|v| v.name == *vm_name).map(|v| v.probes.clone()).unwrap_or_default()`). -/
def probesOf (scen : Scenario) (vmName : String) : List String :=
  ((scen.vms.find? (fun v => v.name == vmName)).map VmDefinition.probes).getD []

/-- The `for name in probe_names` loop of `check_probes_phase`: split the
referenced probe names into parsed `(name, spec)` pairs for this phase and
locally generated failures (undefined probes, invalid configs); names
whose definition belongs to another phase are ignored. -/
def collectProbes (scen : Scenario) (phase : ProbePhase) :
    List String → List (String × ProbeSpec) × List ProbeResult
  | [] => ([], [])
  | n :: rest =>
    match scen.probes.lookup n with
    | none =>
        let r := collectProbes scen phase rest
        (r.1, ProbeResult.fail n ("Probe \x27" ++ n ++ "\x27 not defined in scenario") :: r.2)
    | some d =>
        if d.phase ≠ phase then collectProbes scen phase rest
        else
          match from_definition d.probe_type d.config with
          | some spec =>
              let r := collectProbes scen phase rest
              ((n, spec) :: r.1, r.2)
          | none =>
              let r := collectProbes scen phase rest
              (r.1, ProbeResult.fail n "Invalid probe config" :: r.2)

/-- `self.probe_results.get_mut(vm_name)`-style update: apply `f` to the
entry for `vmName` if present, otherwise do nothing. -/
def updateResults (vmName : String) (f : VmResults → VmResults) :
    ProbeResults → ProbeResults
  | [] => []
  | (k, m) :: rest =>
      if k = vmName then (k, f m) :: rest
      else (k, m) :: updateResults vmName f rest

/-- `vm_results.insert(result.id.clone(), result)` over a list of results. -/
def insertResults (rs : List ProbeResult) (m : VmResults) : VmResults :=
  rs.foldl (fun m r => mapInsert r.id r m) m

/-- `vm_results.entry(id).or_insert_with(|| ProbeResult::fail(..))` over
the dispatched probe ids. -/
def orInsertFails (message : String) (ids : List String) (m : VmResults) :
    VmResults :=
  ids.foldl
    (fun m id =>
      if (m.lookup id).isSome then m
      else mapInsert id (ProbeResult.fail id message) m) m

/-- The agent exchange for one VM: `try_connect` followed by
`AgentConnection::check_all`.  An `Except.error` covers both a connection
failure and a failed probe check; either way `check_probes_phase` records
a fallback failure for every dispatched probe id not already present. -/
abbrev AgentOracle := String → List (String × ProbeSpec) → Except String (List ProbeResult)

/-- The body of `check_probes_phase`'s `for (vm_name, vm) in &self.vms`
loop for one VM: collect this VM's probes for the phase, record local
failures, and if any probes remain dispatch them to the agent, merging
results (or fallback failures) into the VM's result map. -/
def processVm (scen : Scenario) (phase : ProbePhase) (oracle : AgentOracle)
    (results : ProbeResults) (vmName : String) : ProbeResults :=
  let probe_names := probesOf scen vmName
  let col := collectProbes scen phase probe_names
  let results1 := updateResults vmName (insertResults col.2) results
  if col.1.isEmpty then results1
  else
    match oracle vmName col.1 with
    | Except.ok rs => updateResults vmName (insertResults rs) results1
    | Except.error e =>
        updateResults vmName
          (orInsertFails ("Failed to check probes: " ++ e) (col.1.map Prod.fst))
          results1

/-- `ScenarioRunner::all_scenario_probes_passing`: for every VM entry of
`probe_results`, the number of passing results whose probe definition has
phase `Scenario` must equal the number of scenario-phase probes the
scenario assigns to that VM. -/
def all_scenario_probes_passing (scen : Scenario) (results : ProbeResults) :
    Bool :=
  results.all fun vr =>
    let expected :=
      ((probesOf scen vr.1).filter fun p =>
        match scen.probes.lookup p with
        | some d => d.phase == ProbePhase.scenario
        | none => false).length
    let passing :=
      (vr.2.filter fun kv =>
        kv.2.passed &&
          match scen.probes.lookup kv.2.id with
          | some d => d.phase == ProbePhase.scenario
          | none => false).length
    passing == expected

/-- The `ScenarioRunner` state touched by probe dispatch: the scenario,
the `ScenarioState`, the keys of the running-VM map `self.vms`, and the
accumulated probe results. -/
structure RunnerSt where
  scenario : Scenario
  state : ScenarioState
  vmNames : List String
  probe_results : ProbeResults
deriving Repr

/-- `ScenarioRunner::check_probes_phase`: process every running VM, then,
when the phase is `Scenario` and `all_scenario_probes_passing`, set the
scenario state to `Completed`. -/
def check_probes_phase (phase : ProbePhase) (oracle : AgentOracle)
    (r : RunnerSt) : RunnerSt :=
  let results := r.vmNames.foldl (processVm r.scenario phase oracle) r.probe_results
  let st :=
    if phase == ProbePhase.scenario && all_scenario_probes_passing r.scenario results
    then ScenarioState.completed else r.state
  { r with probe_results := results, state := st }

/-- `ScenarioRunner::check_probes` = `check_probes_phase(ProbePhase::Scenario)`. -/
def check_probes (oracle : AgentOracle) (r : RunnerSt) : RunnerSt :=
  check_probes_phase ProbePhase.scenario oracle r

/-! ## Specification-side helper definitions used in theorem statements -/

/-- The `write_files` entry `apply_vm_steps_to_cloud_init` emits for one
step. -/
def stepFile (vm_slug : String) (step : VmStep) : WriteFile :=
  let step_slug := slugify step.name
  let hidden := is_hidden_step step
  let script_path :=
    if hidden then "/run/intar-step-" ++ vm_slug ++ "-" ++ step_slug ++ ".sh"
    else "/usr/local/bin/intar-step-" ++ vm_slug ++ "-" ++ step_slug ++ ".sh"
  ⟨script_path, render_step_script vm_slug step_slug step hidden, some "0755"⟩

/-- The runcmd line `apply_vm_steps_to_cloud_init` emits for one step. -/
def stepLine (vm_slug : String) (step : VmStep) : String :=
  let step_slug := slugify step.name
  if is_hidden_step step then "bash " ++ (stepFile vm_slug step).path
  else "cloud-init-per once intar-step-" ++ vm_slug ++ "-" ++ step_slug ++ " " ++
    (stepFile vm_slug step).path

/-- A QMP stream item carrying a `return` or `error` key. -/
def isRespItem : QmpItem → Bool
  | QmpItem.msg m => m.hasKey "return" || m.hasKey "error"
  | QmpItem.badLine => false

/-- A QMP stream item as QEMU actually emits them: valid JSON, and never
both an asynchronous `event` and a command reply (`return`/`error`) on the
same line. -/
def wfQmpItem : QmpItem → Bool
  | QmpItem.badLine => false
  | QmpItem.msg m =>
      !(m.hasKey "event" && (m.hasKey "return" || m.hasKey "error"))

/-- An agent stream event that terminates `send_request_expect`'s loop for
request tag `expected`: an `error` response or a matching response. -/
def sigEv (expected : ExpectedResponse) : Nat × LineEv → Bool
  | (_, LineEv.msg (Response.respError _)) => true
  | (_, LineEv.msg r) => expected.matches r
  | _ => false

/-- An agent stream read event on the happy path: the read completes with
a line that is blank or parses to a `Response` (no EOF, no I/O error, no
malformed JSON). -/
def wfLineEv : Nat × LineEv → Bool
  | (_, LineEv.blank) => true
  | (_, LineEv.msg _) => true
  | _ => false

/-- The characters `slugify` may emit: lowercase ASCII letters, digits,
dash and underscore. -/
def isSlugChar (c : Char) : Bool :=
  (97 ≤ c.toNat && c.toNat ≤ 122) || (48 ≤ c.toNat && c.toNat ≤ 57) ||
    c = '-' || c = '_'

end Intar

namespace Intar

/-! ## Helper lemmas -/

theorem string_data_append (x y : String) : (x ++ y).data = x.data ++ y.data :=
  String.data_append ..

theorem applyStepsLoop_spec (vm_slug : String) :
    ∀ (steps : List VmStep) (runcmd : String) (files : List WriteFile),
      applyStepsLoop vm_slug runcmd files steps =
        (steps.foldl (fun r step => append_runcmd_line r (stepLine vm_slug step))
          runcmd,
         files ++ steps.map (stepFile vm_slug))
  | [], r, f => by simp [applyStepsLoop]
  | step :: rest, r, f => by
      simp only [applyStepsLoop, applyStepsLoop_spec vm_slug rest, List.foldl_cons,
        List.map_cons, stepFile, stepLine, List.append_assoc, List.singleton_append]

/-! ## Claim C4: management-IP assignment -/

/-- C4 (counterexample): the claim says a scenario with 146 VMs yields a
configuration error, but the VM at index 145 (the 146th VM) is assigned
the valid management IP 10.0.2.245. -/
theorem c4_counterexample : mgmt_ip 145 = Except.ok "10.0.2.245" := by rfl

/-- C4 (amended): management-IP assignment gives the VM at scenario index
`i` the address `10.0.2.(100+i)` for every `i ≤ 154` — so a scenario with
exactly 155 VMs is valid (last octet 254) — and errors for `i ≥ 155`, so a
scenario with 156 VMs yields a configuration error. -/
theorem c4_mgmt_ip_range (i : Nat) :
    (i ≤ 154 → mgmt_ip i = Except.ok ("10.0.2." ++ toString (100 + i))) ∧
    (154 < i →
      mgmt_ip i = Except.error "Too many VMs for management IP addressing") := by
  constructor
  · intro h
    unfold mgmt_ip
    rw [if_pos (show i < 2 ^ 32 by omega), if_pos (show 100 + i ≤ 254 by omega)]
  · intro h
    unfold mgmt_ip
    by_cases h1 : i < 2 ^ 32
    · rw [if_pos h1, if_neg (show ¬100 + i ≤ 254 by omega)]
    · rw [if_neg h1]

/-- C4 witness: both halves of `c4_mgmt_ip_range` at the boundary. -/
theorem c4_witness :
    mgmt_ip 154 = Except.ok ("10.0.2." ++ toString (100 + 154)) ∧
    mgmt_ip 155 = Except.error "Too many VMs for management IP addressing" :=
  ⟨(c4_mgmt_ip_range 154).1 (by decide), (c4_mgmt_ip_range 155).2 (by decide)⟩

/-! ## Claim C7: the break-nginx step emission -/

/-- C7: compiling a step named `break-nginx` with actions
`systemctl{stop, nginx}` and `file_delete{/etc/nginx/sites-enabled/default}`
emits exactly one script, at `/run/intar-step-<vm>-break-nginx.sh` with
mode 0755, whose text is the hidden header (lines 3 and 4 — the first two
after the `#!`/`set` header — being `trap 'rm -f -- "$0"' EXIT` and
`exec >/dev/null 2>&1`) followed by `systemctl stop 'nginx'` and
`rm -f -- '/etc/nginx/sites-enabled/default'` in action-declaration order,
and runs it directly from runcmd. -/
theorem c7_break_nginx_emission (vm_name : String) :
    (apply_vm_steps_to_cloud_init vm_name
        [⟨"break-nginx",
          [VmAction.systemctl "nginx" SystemctlAction.stop,
           VmAction.fileDelete "/etc/nginx/sites-enabled/default"]⟩]
        ⟨[], none, none, []⟩).write_files =
      [⟨"/run/intar-step-" ++ slugify vm_name ++ "-break-nginx.sh",
        "#!/usr/bin/env bash\nset -euo pipefail\ntrap \x27rm -f -- \"$0\"\x27 EXIT\nexec >/dev/null 2>&1\nsystemctl stop \x27nginx\x27\nrm -f -- \x27/etc/nginx/sites-enabled/default\x27\n",
        some "0755"⟩] ∧
    (apply_vm_steps_to_cloud_init vm_name
        [⟨"break-nginx",
          [VmAction.systemctl "nginx" SystemctlAction.stop,
           VmAction.fileDelete "/etc/nginx/sites-enabled/default"]⟩]
        ⟨[], none, none, []⟩).runcmd =
      some ("bash /run/intar-step-" ++ slugify vm_name ++ "-break-nginx.sh\n") := by
  have hslug : slugify "break-nginx" = "break-nginx" := by decide
  have hhid : is_hidden_step
      ⟨"break-nginx",
        [VmAction.systemctl "nginx" SystemctlAction.stop,
         VmAction.fileDelete "/etc/nginx/sites-enabled/default"]⟩ = true := by
    decide
  unfold apply_vm_steps_to_cloud_init
  simp only [List.isEmpty_cons, Bool.false_eq_true, if_false, Option.getD_none,
    applyStepsLoop_spec, List.foldl_cons, List.foldl_nil, List.map_cons,
    List.map_nil, List.nil_append, stepFile, stepLine, hslug, hhid, if_pos,
    append_runcmd_line, if_true]
  constructor
  · simp only [List.cons.injEq, and_true, WriteFile.mk.injEq]
    exact ⟨by apply String.ext; simp [string_data_append], by rfl⟩
  · simp only [Option.some.injEq]
    apply String.ext
    simp [string_data_append]
    decide

/-! ## Claim C3: hidden-step classification -/

theorem listStartsWith_iff (p : List Char) :
    ∀ s : List Char, listStartsWith s p = true ↔ ∃ r, s = p ++ r := by
  induction p with
  | nil =>
      intro s
      simp [listStartsWith]
  | cons q qs ih =>
      intro s
      cases s with
      | nil => simp [listStartsWith]
      | cons c cs =>
          simp only [listStartsWith, Bool.and_eq_true, decide_eq_true_eq, ih,
            List.cons_append, List.cons.injEq]
          constructor
          · rintro ⟨hc, r, hr⟩
            exact ⟨r, hc, hr⟩
          · rintro ⟨r, hc, hr⟩
            exact ⟨hc, r, hr⟩

theorem containsSub_iff (p : List Char) :
    ∀ s : List Char, containsSub s p = true ↔ ∃ l r, s = l ++ (p ++ r) := by
  intro s
  induction s with
  | nil =>
      simp only [containsSub, listStartsWith_iff]
      constructor
      · rintro ⟨r, hr⟩
        exact ⟨[], r, by simpa using hr⟩
      · rintro ⟨l, r, hr⟩
        rw [List.nil_eq, List.append_eq_nil, List.append_eq_nil] at hr
        exact ⟨[], by simp [hr.2.1]⟩
  | cons c cs ih =>
      simp only [containsSub, Bool.or_eq_true, listStartsWith_iff, ih]
      constructor
      · rintro (⟨r, hr⟩ | ⟨l, r, hr⟩)
        · exact ⟨[], r, by simpa using hr⟩
        · exact ⟨c :: l, r, by simp [hr]⟩
      · rintro ⟨l, r, hr⟩
        cases l with
        | nil => exact Or.inl ⟨r, by simpa using hr⟩
        | cons x xs =>
            simp only [List.cons_append, List.cons.injEq] at hr
            exact Or.inr ⟨xs, r, hr.2⟩

theorem listStartsWith_append_self (p : List Char) :
    ∀ r, listStartsWith (p ++ r) p = true := by
  induction p with
  | nil => intro r; cases r <;> simp [listStartsWith]
  | cons q qs ih => intro r; simp [listStartsWith, ih]

/-- C3 (amended): a step is compiled as a hidden step (script under
`/run/intar-step-<vm>-<step>.sh`, self-deleting, all output to
`/dev/null`, invoked as `bash <path>` directly from runcmd) exactly when
its lowercased name contains `break` either at the very start or
immediately followed by `-` or `_` — i.e.
`starts_with("break") || contains("break-") || contains("break_")` — and
otherwise the script goes to `/usr/local/bin` and is invoked via
`cloud-init-per once`.  The names `break`, `breakage` and
`safe-break-check` classify as hidden; `rebuild` does not.  (The original
claim's condition — any occurrence of the substring `break` — is refuted
by `c3_counterexample`.) -/
theorem c3_hidden_step_compilation :
    (∀ step : VmStep,
      is_hidden_step step = true ↔
        ∃ l r : List Char,
          (toLowerAscii step.name).toList = l ++ ("break".toList ++ r) ∧
          (l = [] ∨ r.head? = some '-' ∨ r.head? = some '_')) ∧
    (∀ (vm_name : String) (steps : List VmStep) (config : CloudInitConfig),
      steps ≠ [] →
      (apply_vm_steps_to_cloud_init vm_name steps config).write_files =
        config.write_files ++ steps.map (stepFile (slugify vm_name)) ∧
      (apply_vm_steps_to_cloud_init vm_name steps config).runcmd =
        some (steps.foldl
          (fun r s => append_runcmd_line r (stepLine (slugify vm_name) s))
          (config.runcmd.getD ""))) ∧
    (∀ (vm_slug step_slug : String) (step : VmStep),
      listStartsWith (render_step_script vm_slug step_slug step true).toList
        ("#!/usr/bin/env bash\nset -euo pipefail\ntrap \x27rm -f -- \"$0\"\x27 EXIT\nexec >/dev/null 2>&1\n").toList
        = true) ∧
    is_hidden_step ⟨"break", []⟩ = true ∧
    is_hidden_step ⟨"breakage", []⟩ = true ∧
    is_hidden_step ⟨"safe-break-check", []⟩ = true ∧
    is_hidden_step ⟨"rebuild", []⟩ = false := by
  refine ⟨?_, ?_, ?_, by decide, by decide, by decide, by decide⟩
  · intro step
    unfold is_hidden_step
    simp only [Bool.or_eq_true, listStartsWith_iff, containsSub_iff]
    constructor
    · rintro ((⟨r, hr⟩ | ⟨l, r, hr⟩) | ⟨l, r, hr⟩)
      · exact ⟨[], r, by simpa using hr, Or.inl rfl⟩
      · refine ⟨l, '-' :: r, ?_, Or.inr (Or.inl rfl)⟩
        rw [hr]
        simp [String.toList]
      · refine ⟨l, '_' :: r, ?_, Or.inr (Or.inr rfl)⟩
        rw [hr]
        simp [String.toList]
    · rintro ⟨l, r, hr, (hnil | hdash | hund)⟩
      · subst hnil
        exact Or.inl (Or.inl ⟨r, by simpa using hr⟩)
      · cases r with
        | nil => simp at hdash
        | cons x xs =>
            simp only [List.head?_cons, Option.some.injEq] at hdash
            subst hdash
            refine Or.inl (Or.inr ⟨l, xs, ?_⟩)
            rw [hr]
            simp [String.toList]
      · cases r with
        | nil => simp at hund
        | cons x xs =>
            simp only [List.head?_cons, Option.some.injEq] at hund
            subst hund
            refine Or.inr ⟨l, xs, ?_⟩
            rw [hr]
            simp [String.toList]
  · intro vm_name steps config h
    unfold apply_vm_steps_to_cloud_init
    rw [if_neg (by simpa using h)]
    simp [applyStepsLoop_spec]
  · intro vm_slug step_slug step
    have hdata : (render_step_script vm_slug step_slug step true).toList =
        ("#!/usr/bin/env bash\nset -euo pipefail\ntrap \x27rm -f -- \"$0\"\x27 EXIT\nexec >/dev/null 2>&1\n").toList ++
          (renderActionsFrom step_slug 0 step.actions ++
            render_step_footer vm_slug step_slug true).toList := by
      unfold render_step_script render_step_header
      simp [String.toList, string_data_append]
    rw [hdata]
    exact listStartsWith_append_self _ _

/-- C3 (counterexample): the step name `unbreakable` contains the
substring `break`, yet the step is not compiled as hidden: its script is
emitted under `/usr/local/bin` and invoked via `cloud-init-per once`. -/
theorem c3_counterexample :
    containsSub (toLowerAscii "unbreakable").toList "break".toList = true ∧
    is_hidden_step ⟨"unbreakable", []⟩ = false ∧
    (apply_vm_steps_to_cloud_init "web" [⟨"unbreakable", []⟩]
        ⟨[], none, none, []⟩).write_files.map WriteFile.path =
      ["/usr/local/bin/intar-step-web-unbreakable.sh"] ∧
    (apply_vm_steps_to_cloud_init "web" [⟨"unbreakable", []⟩]
        ⟨[], none, none, []⟩).runcmd =
      some "cloud-init-per once intar-step-web-unbreakable /usr/local/bin/intar-step-web-unbreakable.sh\n" := by
  refine ⟨by decide, by decide, ?_, ?_⟩ <;> decide

/-- C3 witness: the classification rule and the placement rule of
`c3_hidden_step_compilation` applied at concrete inputs. -/
theorem c3_witness :
    is_hidden_step ⟨"break-disk", []⟩ = true ∧
    (apply_vm_steps_to_cloud_init "web" [⟨"rebuild", []⟩]
        ⟨[], none, none, []⟩).write_files =
      ([] : List WriteFile) ++ [⟨"rebuild", []⟩].map (stepFile (slugify "web")) :=
  ⟨(c3_hidden_step_compilation.1 ⟨"break-disk", []⟩).mpr
      ⟨[], "-disk".toList, by decide, Or.inl rfl⟩,
   (c3_hidden_step_compilation.2.1 "web" [⟨"rebuild", []⟩] ⟨[], none, none, []⟩
      (by decide)).1⟩

/-! ## Claim C10: slugify invariants -/

theorem char_toNat_ofNat (n : Nat) (h : n < 55296) : (Char.ofNat n).toNat = n := by
  have hv : n.isValidChar := Or.inl h
  rw [Char.ofNat, dif_pos hv]
  simp [Char.ofNatAux, Char.toNat, UInt32.toNat, BitVec.toNat_ofNatLt]

theorem char_eq_iff_toNat (c d : Char) : c = d ↔ c.toNat = d.toNat := by
  constructor
  · intro h; rw [h]
  · intro h
    apply Char.eq_of_val_eq
    apply UInt32.eq_of_toBitVec_eq
    apply BitVec.eq_of_toNat_eq
    exact h

theorem isAsciiAlphanumeric_iff (c : Char) :
    isAsciiAlphanumeric c = true ↔
      (97 ≤ c.toNat ∧ c.toNat ≤ 122) ∨ (65 ≤ c.toNat ∧ c.toNat ≤ 90) ∨
        (48 ≤ c.toNat ∧ c.toNat ≤ 57) := by
  unfold isAsciiAlphanumeric
  simp only [Bool.or_eq_true, Bool.and_eq_true, decide_eq_true_eq]
  tauto

theorem isSlugChar_iff (c : Char) :
    isSlugChar c = true ↔
      (97 ≤ c.toNat ∧ c.toNat ≤ 122) ∨ (48 ≤ c.toNat ∧ c.toNat ≤ 57) ∨
        c.toNat = 45 ∨ c.toNat = 95 := by
  have h45 : ('-').toNat = 45 := by decide
  have h95 : ('_').toNat = 95 := by decide
  unfold isSlugChar
  simp only [Bool.or_eq_true, Bool.and_eq_true, decide_eq_true_eq,
    char_eq_iff_toNat, h45, h95]
  tauto

theorem toAsciiLowercase_toNat (c : Char) :
    (toAsciiLowercase c).toNat =
      if 65 ≤ c.toNat ∧ c.toNat ≤ 90 then c.toNat + 32 else c.toNat := by
  unfold toAsciiLowercase
  by_cases h : 65 ≤ c.toNat ∧ c.toNat ≤ 90
  · rw [if_pos (by simp only [Bool.and_eq_true, decide_eq_true_eq]; exact h),
      if_pos h]
    exact char_toNat_ofNat _ (by omega)
  · rw [if_neg (by simp only [Bool.and_eq_true, decide_eq_true_eq]; exact h),
      if_neg h]

theorem isSlugChar_normalize (c : Char) (h : isSlugChar c = true) :
    slugNormalize c = some c := by
  rw [isSlugChar_iff] at h
  unfold slugNormalize
  rcases h with h | h | h | h
  · rw [if_pos ((isAsciiAlphanumeric_iff c).mpr (Or.inl h))]
    have : toAsciiLowercase c = c := by
      rw [char_eq_iff_toNat, toAsciiLowercase_toNat, if_neg (by omega)]
    rw [this]
  · rw [if_pos ((isAsciiAlphanumeric_iff c).mpr (Or.inr (Or.inr h)))]
    have : toAsciiLowercase c = c := by
      rw [char_eq_iff_toNat, toAsciiLowercase_toNat, if_neg (by omega)]
    rw [this]
  · have hc : c = '-' := by rw [char_eq_iff_toNat, h]; decide
    subst hc; decide
  · have hc : c = '_' := by rw [char_eq_iff_toNat, h]; decide
    subst hc; decide

theorem slugNormalize_good (c ch : Char) (h : slugNormalize c = some ch) :
    isSlugChar ch = true ∧ slugNormalize ch = some ch := by
  by_cases ha : isAsciiAlphanumeric c = true
  · have hch : ch = toAsciiLowercase c := by
      unfold slugNormalize at h
      rw [if_pos ha] at h
      exact (Option.some.inj h).symm
    subst hch
    have hslug : isSlugChar (toAsciiLowercase c) = true := by
      rw [isSlugChar_iff, toAsciiLowercase_toNat]
      rcases (isAsciiAlphanumeric_iff c).mp ha with h1 | h1 | h1
      · rw [if_neg (by omega)]; omega
      · rw [if_pos h1]; omega
      · rw [if_neg (by omega)]; omega
    exact ⟨hslug, isSlugChar_normalize _ hslug⟩
  · unfold slugNormalize at h
    rw [if_neg ha] at h
    by_cases hd : (c = '-' || c = '_') = true
    · rw [if_pos hd] at h
      have hch : ch = c := (Option.some.inj h).symm
      subst hch
      simp only [Bool.or_eq_true, decide_eq_true_eq] at hd
      rcases hd with hd | hd <;> subst hd <;> exact ⟨by decide, by decide⟩
    · rw [if_neg hd] at h
      exact absurd h (by simp)

theorem slugifyLoop_chars :
    ∀ (l out : List Char) (ld : Bool),
      (∀ c ∈ out, isSlugChar c = true) →
      ∀ c ∈ slugifyLoop out ld l, isSlugChar c = true := by
  intro l
  induction l with
  | nil => intro out ld hout; simpa [slugifyLoop] using hout
  | cons c rest ih =>
      intro out ld hout x hx
      cases hn : slugNormalize c with
      | some ch =>
          simp only [slugifyLoop, hn] at hx
          refine ih _ false ?_ x hx
          intro y hy
          rcases List.mem_append.1 hy with hy | hy
          · exact hout y hy
          · rw [List.mem_singleton] at hy
            rw [hy]
            exact (slugNormalize_good c ch hn).1
      | none =>
          simp only [slugifyLoop, hn] at hx
          by_cases he : (out.isEmpty || ld) = true
          · rw [if_pos he] at hx
            exact ih out ld hout x hx
          · rw [if_neg he] at hx
            refine ih _ true ?_ x hx
            intro y hy
            rcases List.mem_append.1 hy with hy | hy
            · exact hout y hy
            · simp only [List.mem_singleton] at hy
              subst hy; decide

theorem head?_dropWhile_false {α : Type} (p : α → Bool) :
    ∀ (l : List α) (x : α), (l.dropWhile p).head? = some x → p x = false := by
  intro l
  induction l with
  | nil => intro x h; simp [List.dropWhile] at h
  | cons c rest ih =>
      intro x h
      rw [List.dropWhile_cons] at h
      by_cases hp : p c = true
      · rw [if_pos hp] at h
        exact ih x h
      · rw [if_neg hp] at h
        simp only [List.head?_cons, Option.some.injEq] at h
        subst h
        simpa using hp

theorem trimTrailingDashes_getLast (l : List Char) :
    (trimTrailingDashes l).getLast? ≠ some '-' := by
  unfold trimTrailingDashes
  rw [List.getLast?_reverse]
  intro h
  have := head?_dropWhile_false _ _ _ h
  simp at this

theorem trimTrailingDashes_subset (l : List Char) :
    ∀ c ∈ trimTrailingDashes l, c ∈ l := by
  intro c hc
  unfold trimTrailingDashes at hc
  rw [List.mem_reverse] at hc
  have := (List.dropWhile_sublist (l := l.reverse)
    (p := fun c => c = '-')).mem hc
  simpa using this

theorem trimTrailingDashes_id (l : List Char) (h : l.getLast? ≠ some '-') :
    trimTrailingDashes l = l := by
  unfold trimTrailingDashes
  cases hr : l.reverse with
  | nil =>
      have : l = [] := by simpa using congrArg List.reverse hr
      simp [this]
  | cons x xs =>
      have hx : l.getLast? = some x := by
        rw [← List.head?_reverse, hr, List.head?_cons]
      have hxd : decide (x = '-') = false := by
        simp only [decide_eq_false_iff_not]
        intro hx2
        exact h (by rw [hx, hx2])
      rw [List.dropWhile_cons]
      simp only [hxd, Bool.false_eq_true, if_false]
      rw [← hr, List.reverse_reverse]

theorem slugifyLoop_fixed :
    ∀ (l out : List Char) (ld : Bool),
      (∀ c ∈ l, slugNormalize c = some c) →
      slugifyLoop out ld l = out ++ l := by
  intro l
  induction l with
  | nil => intro out ld _; simp [slugifyLoop]
  | cons c rest ih =>
      intro out ld h
      have hc := h c (List.mem_cons_self c rest)
      simp only [slugifyLoop, hc]
      rw [ih (out ++ [c]) false fun y hy => h y (List.mem_cons_of_mem c hy)]
      simp

theorem slugifyLoop_dropAll :
    ∀ (l : List Char) (ld : Bool),
      (∀ c ∈ l, slugNormalize c = none) →
      slugifyLoop [] ld l = [] := by
  intro l
  induction l with
  | nil => intro ld _; simp [slugifyLoop]
  | cons c rest ih =>
      intro ld h
      have hc := h c (List.mem_cons_self c rest)
      simp only [slugifyLoop, hc, List.isEmpty_nil, Bool.true_or, if_true]
      exact ih ld fun y hy => h y (List.mem_cons_of_mem c hy)

theorem slugify_basic_invariants (s : String) :
    slugify s ≠ "" ∧
    (∀ c ∈ (slugify s).toList, isSlugChar c = true) ∧
    (slugify s).toList.getLast? ≠ some '-' ∧
    slugify (slugify s) = slugify s ∧
    ((∀ c ∈ s.toList, slugNormalize c = none) → slugify s = "step") := by
  by_cases he : (trimTrailingDashes (slugifyLoop [] false s.toList)).isEmpty = true
  · have hs : slugify s = "step" := by
      simp only [slugify]
      rw [if_pos he]
    rw [hs]
    exact ⟨by decide, by decide, by decide, by decide, fun _ => rfl⟩
  · have hs : slugify s =
        String.mk (trimTrailingDashes (slugifyLoop [] false s.toList)) := by
      simp only [slugify]
      rw [if_neg he]
    have hne : trimTrailingDashes (slugifyLoop [] false s.toList) ≠ [] := by
      intro hh
      exact he (by rw [hh]; rfl)
    have hchars : ∀ c ∈ trimTrailingDashes (slugifyLoop [] false s.toList),
        isSlugChar c = true := fun c hc =>
      slugifyLoop_chars s.toList [] false (by simp) c
        (trimTrailingDashes_subset _ c hc)
    have hlast := trimTrailingDashes_getLast (slugifyLoop [] false s.toList)
    rw [hs]
    refine ⟨?_, ?_, ?_, ?_, ?_⟩
    · intro h
      exact hne (congrArg String.data h)
    · intro c hc
      exact hchars c hc
    · exact hlast
    · simp only [slugify]
      have htl : (String.mk (trimTrailingDashes (slugifyLoop [] false
          s.toList))).toList = trimTrailingDashes (slugifyLoop [] false s.toList) :=
        rfl
      rw [htl]
      rw [slugifyLoop_fixed _ [] false
        (fun c hc => isSlugChar_normalize c (hchars c hc))]
      rw [List.nil_append, trimTrailingDashes_id _ hlast]
      rw [if_neg (by simpa [List.isEmpty_iff] using hne)]
    · intro hall
      exfalso
      apply hne
      rw [slugifyLoop_dropAll s.toList false hall]
      rfl

theorem slugNormalize_toAsciiLowercase (c : Char) :
    slugNormalize (toAsciiLowercase c) = slugNormalize c := by
  by_cases hu : 65 ≤ c.toNat ∧ c.toNat ≤ 90
  · have hl : (toAsciiLowercase c).toNat = c.toNat + 32 := by
      rw [toAsciiLowercase_toNat, if_pos hu]
    have halnumc : isAsciiAlphanumeric c = true :=
      (isAsciiAlphanumeric_iff c).mpr (Or.inr (Or.inl hu))
    have halnuml : isAsciiAlphanumeric (toAsciiLowercase c) = true :=
      (isAsciiAlphanumeric_iff _).mpr (Or.inl (by rw [hl]; omega))
    unfold slugNormalize
    rw [if_pos halnuml, if_pos halnumc]
    congr 1
    rw [char_eq_iff_toNat, toAsciiLowercase_toNat (toAsciiLowercase c),
      if_neg (by rw [hl]; omega)]
  · have hid : toAsciiLowercase c = c := by
      rw [char_eq_iff_toNat, toAsciiLowercase_toNat, if_neg hu]
    rw [hid]

theorem slugifyLoop_map_lower :
    ∀ (l out : List Char) (ld : Bool),
      slugifyLoop out ld (l.map toAsciiLowercase) = slugifyLoop out ld l := by
  intro l
  induction l with
  | nil => intro out ld; rfl
  | cons c rest ih =>
      intro out ld
      rw [List.map_cons]
      cases hn : slugNormalize c with
      | some ch =>
          have hn2 : slugNormalize (toAsciiLowercase c) = some ch := by
            rw [slugNormalize_toAsciiLowercase, hn]
          simp only [slugifyLoop, hn, hn2]
          exact ih _ _
      | none =>
          have hn2 : slugNormalize (toAsciiLowercase c) = none := by
            rw [slugNormalize_toAsciiLowercase, hn]
          simp only [slugifyLoop, hn, hn2]
          by_cases he : (out.isEmpty || ld) = true
          · rw [if_pos he, if_pos he]
            exact ih _ _
          · rw [if_neg he, if_neg he]
            exact ih _ _

theorem slugify_lower_eq (s : String) :
    slugify (toLowerAscii s) = slugify s := by
  simp only [slugify, toLowerAscii]
  have h1 : (String.mk (s.toList.map toAsciiLowercase)).toList =
      s.toList.map toAsciiLowercase := rfl
  rw [h1, slugifyLoop_map_lower s.toList [] false]

theorem slugifyLoop_collapse (c c' : Char) (hc : slugNormalize c = none)
    (hc' : slugNormalize c' = none) :
    ∀ (l1 l2 out : List Char) (ld : Bool),
      slugifyLoop out ld (l1 ++ c :: c' :: l2) =
        slugifyLoop out ld (l1 ++ c :: l2) := by
  intro l1
  induction l1 with
  | nil =>
      intro l2 out ld
      rw [List.nil_append, List.nil_append]
      cases he : (out.isEmpty || ld) with
      | true => simp [slugifyLoop, hc, hc', he]
      | false => simp [slugifyLoop, hc, hc', he]
  | cons d rest ih =>
      intro l2 out ld
      rw [List.cons_append, List.cons_append]
      cases hn : slugNormalize d with
      | some ch =>
          simp only [slugifyLoop, hn]
          exact ih l2 _ _
      | none =>
          simp only [slugifyLoop, hn]
          by_cases he : (out.isEmpty || ld) = true
          · rw [if_pos he, if_pos he]
            exact ih l2 _ _
          · rw [if_neg he, if_neg he]
            exact ih l2 _ _

/-- C10 (amended): for every input string, `slugify` returns a non-empty
string of lowercase ASCII letters, digits, `-` and `_` with no trailing
dash (falling back to `"step"` when nothing survives), and `slugify` is
idempotent; consequently step names that differ only in ASCII case map to
the same script path, and a run of dropped characters (characters other
than ASCII alphanumerics, `-` and `_`) collapses to a single separator —
but `-` and `_` themselves are preserved verbatim, so names differing in
dash/underscore runs map to different script paths (see
`c10_counterexample`). -/
theorem c10_slugify_invariants :
    (∀ s : String,
      slugify s ≠ "" ∧
      (∀ c ∈ (slugify s).toList, isSlugChar c = true) ∧
      (slugify s).toList.getLast? ≠ some '-' ∧
      slugify (slugify s) = slugify s ∧
      ((∀ c ∈ s.toList, slugNormalize c = none) → slugify s = "step")) ∧
    (∀ s t : String, toLowerAscii s = toLowerAscii t → slugify s = slugify t) ∧
    (∀ (l1 l2 : List Char) (c c' : Char),
      slugNormalize c = none → slugNormalize c' = none →
      slugify (String.mk (l1 ++ c :: c' :: l2)) =
        slugify (String.mk (l1 ++ c :: l2))) := by
  refine ⟨slugify_basic_invariants, ?_, ?_⟩
  · intro s t h
    calc slugify s = slugify (toLowerAscii s) := (slugify_lower_eq s).symm
      _ = slugify (toLowerAscii t) := by rw [h]
      _ = slugify t := slugify_lower_eq t
  · intro l1 l2 c c' hc hc'
    simp only [slugify]
    have h1 : (String.mk (l1 ++ c :: c' :: l2)).toList =
        l1 ++ c :: c' :: l2 := rfl
    have h2 : (String.mk (l1 ++ c :: l2)).toList = l1 ++ c :: l2 := rfl
    rw [h1, h2, slugifyLoop_collapse c c' hc hc' l1 l2 [] false]

/-- C10 (counterexample): the step names `break--nginx` and `break-nginx`
differ only in a punctuation run (a run of dashes), yet `slugify`
preserves `-` verbatim, so they compile to different script paths —
refuting the original claim's final clause. -/
theorem c10_counterexample :
    slugify "break--nginx" = "break--nginx" ∧
    slugify "break-nginx" = "break-nginx" ∧
    (apply_vm_steps_to_cloud_init "web" [⟨"break--nginx", []⟩]
        ⟨[], none, none, []⟩).write_files.map WriteFile.path =
      ["/run/intar-step-web-break--nginx.sh"] ∧
    (apply_vm_steps_to_cloud_init "web" [⟨"break-nginx", []⟩]
        ⟨[], none, none, []⟩).write_files.map WriteFile.path =
      ["/run/intar-step-web-break-nginx.sh"] := by
  refine ⟨?_, ?_, ?_, ?_⟩ <;> decide

/-! ## Claim C2: L2 switch forwarding -/

theorem lookup_mapInsert_self {κ α : Type} [DecidableEq κ] [BEq κ] [LawfulBEq κ]
    (k : κ) (v : α) :
    ∀ m : List (κ × α), (mapInsert k v m).lookup k = some v := by
  intro m
  induction m with
  | nil => simp [mapInsert, List.lookup]
  | cons kv rest ih =>
      obtain ⟨k0, v0⟩ := kv
      by_cases hk : k0 = k
      · subst hk
        simp [mapInsert, List.lookup]
      · have hb : (k == k0) = false :=
          beq_eq_false_iff_ne.mpr fun h => hk h.symm
        simp only [mapInsert, if_neg hk, List.lookup, hb]
        exact ih

theorem lookup_mapInsert_ne {κ α : Type} [DecidableEq κ] [BEq κ] [LawfulBEq κ]
    (k k' : κ) (v : α) (hk : k' ≠ k) :
    ∀ m : List (κ × α), (mapInsert k v m).lookup k' = m.lookup k' := by
  intro m
  have hb : (k' == k) = false := beq_eq_false_iff_ne.mpr hk
  induction m with
  | nil => simp only [mapInsert, List.lookup, hb]
  | cons kv rest ih =>
      obtain ⟨k0, v0⟩ := kv
      by_cases hk0 : k0 = k
      · subst hk0
        simp only [mapInsert, if_pos rfl, List.lookup, hb]
      · by_cases he : k' = k0
        · have hb0 : (k' == k0) = true := beq_iff_eq.mpr he
          simp only [mapInsert, if_neg hk0, List.lookup, hb0]
        · have hb0 : (k' == k0) = false := beq_eq_false_iff_ne.mpr he
          simp only [mapInsert, if_neg hk0, List.lookup, hb0]
          exact ih

theorem switchStep_drop (peers : List Peer) (tbl : MacTable) (d : Datagram)
    (h : d.frame.length < 14) : switchStep peers tbl d = (tbl, []) := by
  unfold switchStep
  rw [if_pos h]

theorem switchStep_table (peers : List Peer) (tbl : MacTable) (d : Datagram)
    (h : 14 ≤ d.frame.length) :
    (switchStep peers tbl d).1 =
      mapInsert ((d.frame.drop 6).take 6) d.src_addr tbl := by
  unfold switchStep
  rw [if_neg (by omega)]
  cases hb : isBroadcastMac (d.frame.take 6) || isMulticastMac (d.frame.take 6) with
  | true => simp [hb]
  | false =>
      simp only [hb, Bool.false_eq_true, if_false]
      cases hl : (mapInsert ((d.frame.drop 6).take 6) d.src_addr tbl).lookup
          (d.frame.take 6) <;> simp [hl]

theorem switchStep_flood (peers : List Peer) (tbl : MacTable) (d : Datagram)
    (h : 14 ≤ d.frame.length)
    (hb : (isBroadcastMac (d.frame.take 6) ||
      isMulticastMac (d.frame.take 6)) = true) :
    (switchStep peers tbl d).2 =
      (peers.filter (fun p => p ≠ d.src_addr)).map (fun p => (d.frame, p)) := by
  unfold switchStep
  rw [if_neg (by omega)]
  simp [hb]

theorem switchStep_unicast (peers : List Peer) (tbl : MacTable) (d : Datagram)
    (pA : Peer) (h : 14 ≤ d.frame.length)
    (hl : tbl.lookup (d.frame.take 6) = some pA)
    (hb : (isBroadcastMac (d.frame.take 6) ||
      isMulticastMac (d.frame.take 6)) = false) :
    (switchStep peers tbl d).2 ⊆ [(d.frame, pA)] ∧
      ((d.frame.drop 6).take 6 ≠ d.frame.take 6 → pA ≠ d.src_addr →
        (switchStep peers tbl d).2 = [(d.frame, pA)]) := by
  unfold switchStep
  rw [if_neg (by omega)]
  simp only [hb, Bool.false_eq_true, if_false]
  by_cases hsd : (d.frame.drop 6).take 6 = d.frame.take 6
  · rw [hsd]
    have hlk := lookup_mapInsert_self (d.frame.take 6) d.src_addr tbl
    simp only [hlk]
    constructor
    · simp
    · intro hne
      exact absurd rfl hne
  · have hlk : List.lookup (d.frame.take 6)
        (mapInsert ((d.frame.drop 6).take 6) d.src_addr tbl) = some pA := by
      rw [lookup_mapInsert_ne _ _ _ (fun hh => hsd hh.symm) tbl]
      exact hl
    simp only [hlk]
    constructor
    · by_cases ht : pA ≠ d.src_addr
      · simp [ht]
      · simp [ht]
    · intro _ hpa
      simp [hpa]

theorem runSwitch_preserve (peers : List Peer) (A : List Nat) :
    ∀ (mid : List Datagram) (tbl : MacTable),
      (∀ d ∈ mid, 14 ≤ d.frame.length → (d.frame.drop 6).take 6 ≠ A) →
      ((runSwitch peers tbl mid).1).lookup A = tbl.lookup A := by
  intro mid
  induction mid with
  | nil => intro tbl _; simp [runSwitch]
  | cons d rest ih =>
      intro tbl hmid
      show ((runSwitch peers (switchStep peers tbl d).1 rest).1).lookup A =
        tbl.lookup A
      rw [ih _ fun x hx hlen => hmid x (List.mem_cons_of_mem d hx) hlen]
      by_cases hlen : d.frame.length < 14
      · rw [switchStep_drop peers tbl d hlen]
      · rw [switchStep_table peers tbl d (by omega)]
        exact lookup_mapInsert_ne _ _ _
          (fun hh => hmid d (List.mem_cons_self d rest) (by omega) hh.symm) tbl

/-- C2: the L2 switch forwarding loop: (1) frames shorter than 14 bytes
are dropped (no forwarding, no learning); (2) a broadcast- or
multicast-destined frame from peer `P_A` is forwarded to exactly the
peers other than `P_A`; (3) receiving a frame learns its source MAC;
(4) a unicast frame whose destination MAC is mapped to `P_A` in the MAC
table is forwarded only to `P_A` (exactly to `P_A` when the frame does not
itself relearn the destination MAC and did not arrive from `P_A`);
(5) processing frames whose source MAC differs from `A` never changes what
the table maps `A` to; and (6) end to end: after a frame with source MAC
`A` arrives from `P_A` and any interleaved traffic not re-learning `A`, a
unicast frame destined to `A` is forwarded exactly to `P_A`. -/
theorem c2_switch_forwarding :
    (∀ (peers : List Peer) (tbl : MacTable) (d : Datagram),
      d.frame.length < 14 → switchStep peers tbl d = (tbl, [])) ∧
    (∀ (peers : List Peer) (tbl : MacTable) (d : Datagram),
      14 ≤ d.frame.length →
      (isBroadcastMac (d.frame.take 6) ||
        isMulticastMac (d.frame.take 6)) = true →
      ∀ p : Peer,
        (d.frame, p) ∈ (switchStep peers tbl d).2 ↔ p ∈ peers ∧ p ≠ d.src_addr) ∧
    (∀ (peers : List Peer) (tbl : MacTable) (d : Datagram),
      14 ≤ d.frame.length →
      ((switchStep peers tbl d).1).lookup ((d.frame.drop 6).take 6) =
        some d.src_addr) ∧
    (∀ (peers : List Peer) (tbl : MacTable) (d : Datagram) (pA : Peer),
      14 ≤ d.frame.length →
      tbl.lookup (d.frame.take 6) = some pA →
      (isBroadcastMac (d.frame.take 6) ||
        isMulticastMac (d.frame.take 6)) = false →
      (switchStep peers tbl d).2 ⊆ [(d.frame, pA)] ∧
        ((d.frame.drop 6).take 6 ≠ d.frame.take 6 → pA ≠ d.src_addr →
          (switchStep peers tbl d).2 = [(d.frame, pA)])) ∧
    (∀ (peers : List Peer) (tbl : MacTable) (mid : List Datagram) (A : List Nat),
      (∀ d ∈ mid, 14 ≤ d.frame.length → (d.frame.drop 6).take 6 ≠ A) →
      ((runSwitch peers tbl mid).1).lookup A = tbl.lookup A) ∧
    (∀ (peers : List Peer) (tbl : MacTable) (learnD : Datagram)
        (mid : List Datagram) (queryD : Datagram) (A : List Nat) (pA : Peer),
      14 ≤ learnD.frame.length →
      (learnD.frame.drop 6).take 6 = A → learnD.src_addr = pA →
      (∀ d ∈ mid, 14 ≤ d.frame.length → (d.frame.drop 6).take 6 ≠ A) →
      14 ≤ queryD.frame.length →
      queryD.frame.take 6 = A →
      (isBroadcastMac A || isMulticastMac A) = false →
      (queryD.frame.drop 6).take 6 ≠ A →
      pA ≠ queryD.src_addr →
      (switchStep peers
          (runSwitch peers (switchStep peers tbl learnD).1 mid).1 queryD).2 =
        [(queryD.frame, pA)]) := by
  refine ⟨switchStep_drop, ?_, ?_, switchStep_unicast, ?_, ?_⟩
  · intro peers tbl d hlen hb p
    rw [switchStep_flood peers tbl d hlen hb]
    constructor
    · intro hmem
      rw [List.mem_map] at hmem
      obtain ⟨q, hq, heq⟩ := hmem
      rw [List.mem_filter, decide_eq_true_eq] at hq
      have hqp : q = p := congrArg Prod.snd heq
      subst hqp
      exact hq
    · rintro ⟨hp, hpne⟩
      rw [List.mem_map]
      exact ⟨p, List.mem_filter.mpr ⟨hp, decide_eq_true hpne⟩, rfl⟩
  · intro peers tbl d hlen
    rw [switchStep_table peers tbl d hlen]
    exact lookup_mapInsert_self _ _ tbl
  · intro peers tbl mid A h
    exact runSwitch_preserve peers A mid tbl h
  · intro peers tbl learnD mid queryD A pA hlen hsrc hfrom hmid hqlen hqdst hb
      hqsrc hpa
    have hlearn : ((switchStep peers tbl learnD).1).lookup A = some pA := by
      rw [switchStep_table peers tbl learnD hlen, hsrc, hfrom]
      exact lookup_mapInsert_self _ _ tbl
    have hmidp : ((runSwitch peers (switchStep peers tbl learnD).1 mid).1).lookup
        A = some pA := by
      rw [runSwitch_preserve peers A mid _ hmid, hlearn]
    refine (switchStep_unicast peers _ queryD pA hqlen ?_ ?_).2 ?_ hpa
    · rw [hqdst]; exact hmidp
    · rw [hqdst]; exact hb
    · rw [hqdst]; exact hqsrc

/-- C2 witness: a concrete three-peer switch: a broadcast from peer 1
learns MAC `A = 02:...:02` and floods to peers 2 and 3; a unicast to `A`
from peer 3 is then forwarded exactly to peer 1. -/
theorem c2_witness :
    switchStep [1, 2, 3] []
        ⟨[255, 255, 255, 255, 255, 255, 2, 2, 2, 2, 2, 2, 0, 0], 1⟩ =
      ([([2, 2, 2, 2, 2, 2], 1)],
        [([255, 255, 255, 255, 255, 255, 2, 2, 2, 2, 2, 2, 0, 0], 2),
         ([255, 255, 255, 255, 255, 255, 2, 2, 2, 2, 2, 2, 0, 0], 3)]) ∧
    (switchStep [1, 2, 3] [([2, 2, 2, 2, 2, 2], 1)]
        ⟨[2, 2, 2, 2, 2, 2, 3, 3, 3, 3, 3, 3, 0, 0], 3⟩).2 =
      [([2, 2, 2, 2, 2, 2, 3, 3, 3, 3, 3, 3, 0, 0], 1)] := by
  constructor
  · decide
  · exact c2_switch_forwarding.2.2.2.2.2 [1, 2, 3] [] ⟨[255, 255, 255, 255,
      255, 255, 2, 2, 2, 2, 2, 2, 0, 0], 1⟩ []
      ⟨[2, 2, 2, 2, 2, 2, 3, 3, 3, 3, 3, 3, 0, 0], 3⟩ [2, 2, 2, 2, 2, 2] 1
      (by decide) (by decide) (by decide) (by decide) (by decide) (by decide)
      (by decide) (by decide) (by decide)

/-! ## Claim C1: checkpoint pause/save/resume coordination -/

theorem saveSeq_eq (tag : String) :
    ∀ vms : List VmBehavior, (∀ v ∈ vms, v.saveOk = true) →
      saveSeq tag vms = (vms.map (fun v => CkEvent.saveCmd v.name tag), none) := by
  intro vms
  induction vms with
  | nil => intro _; rfl
  | cons v rest ih =>
      intro h
      unfold saveSeq
      rw [if_pos (h v (List.mem_cons_self v rest))]
      rw [ih fun y hy => h y (List.mem_cons_of_mem v hy)]
      rfl

theorem saveSeq_none (tag : String) :
    ∀ vms : List VmBehavior,
      (saveSeq tag vms).2 = none ↔ ∀ v ∈ vms, v.saveOk = true := by
  intro vms
  induction vms with
  | nil => simp [saveSeq]
  | cons v rest ih =>
      unfold saveSeq
      by_cases hv : v.saveOk = true
      · rw [if_pos hv]
        constructor
        · intro h y hy
          rcases List.mem_cons.1 hy with hy | hy
          · rw [hy]; exact hv
          · exact (ih.mp h) y hy
        · intro h
          exact ih.mpr fun y hy => h y (List.mem_cons_of_mem v hy)
      · rw [if_neg hv]
        simp only [ne_eq, reduceCtorEq]
        constructor
        · intro h; exact absurd h (by simp)
        · intro h
          exact absurd (h v (List.mem_cons_self v rest)) hv

/-- C1: `save_checkpoint` issues a resume command to every VM on every
path (success, pause failure, snapshot failure, resume failure); on
success the command trace is exactly all pauses, then all snapshot saves,
then all resumes (so every VM is paused before any snapshot-save is issued
and resumed afterwards); and the call succeeds exactly when pause,
snapshot-save and resume succeed on every VM — any failure is surfaced to
the caller after the resumes are issued. -/
theorem c1_save_checkpoint (vms : List VmBehavior) (tag : String) :
    (∀ v ∈ vms, CkEvent.resumeCmd v.name ∈ (save_checkpoint vms tag).1) ∧
    ((save_checkpoint vms tag).2 = none →
      (save_checkpoint vms tag).1 =
        vms.map (fun v => CkEvent.pauseCmd v.name) ++
          vms.map (fun v => CkEvent.saveCmd v.name tag) ++
          vms.map (fun v => CkEvent.resumeCmd v.name)) ∧
    ((save_checkpoint vms tag).2 = none ↔
      ∀ v ∈ vms, v.pauseOk = true ∧ v.saveOk = true ∧ v.resumeOk = true) := by
  cases hp : vms.find? (fun v => !v.pauseOk) with
  | some v0 =>
      have hform : save_checkpoint vms tag =
          (vms.map (fun v => CkEvent.pauseCmd v.name) ++
            vms.map (fun v => CkEvent.resumeCmd v.name),
           some ("pause failed: " ++ v0.name)) := by
        unfold save_checkpoint pauseAll resumeAll
        rw [hp]
        rfl
      rw [hform]
      refine ⟨?_, ?_, ?_⟩
      · intro v hv
        exact List.mem_append.2 (Or.inr (List.mem_map.2 ⟨v, hv, rfl⟩))
      · intro h
        exact absurd h (by simp)
      · constructor
        · intro h
          exact absurd h (by simp)
        · intro h
          have hmem := List.mem_of_find?_eq_some hp
          have hprop := List.find?_some hp
          rw [Bool.not_eq_eq_eq_not, Bool.not_true] at hprop
          exact absurd (h v0 hmem).1 (by rw [hprop]; simp)
  | none =>
      have hallp : ∀ v ∈ vms, v.pauseOk = true := by
        intro v hv
        have := List.find?_eq_none.1 hp v hv
        simpa using this
      have hform : save_checkpoint vms tag =
          (vms.map (fun v => CkEvent.pauseCmd v.name) ++ (saveSeq tag vms).1 ++
            vms.map (fun v => CkEvent.resumeCmd v.name),
           ((saveSeq tag vms).2).orElse fun _ =>
             (vms.find? (fun v => !v.resumeOk)).map
               (fun v => "resume failed: " ++ v.name)) := by
        unfold save_checkpoint pauseAll resumeAll
        rw [hp]
        rfl
      rw [hform]
      cases hs : (saveSeq tag vms).2 with
      | some e =>
          refine ⟨?_, ?_, ?_⟩
          · intro v hv
            refine List.mem_append.2 (Or.inr (List.mem_map.2 ⟨v, hv, rfl⟩))
          · intro h
            exact absurd h (by simp [Option.orElse])
          · constructor
            · intro h
              exact absurd h (by simp [Option.orElse])
            · intro h
              have := (saveSeq_none tag vms).mpr fun v hv => (h v hv).2.1
              rw [hs] at this
              exact absurd this (by simp)
      | none =>
          have halls : ∀ v ∈ vms, v.saveOk = true := (saveSeq_none tag vms).1 hs
          have hseq := saveSeq_eq tag vms halls
          refine ⟨?_, ?_, ?_⟩
          · intro v hv
            refine List.mem_append.2 (Or.inr (List.mem_map.2 ⟨v, hv, rfl⟩))
          · intro _
            rw [hseq]
          · cases hr : vms.find? (fun v => !v.resumeOk) with
            | some v1 =>
                constructor
                · intro h
                  exact absurd h (by simp [Option.orElse])
                · intro h
                  have hmem := List.mem_of_find?_eq_some hr
                  have hprop := List.find?_some hr
                  rw [Bool.not_eq_eq_eq_not, Bool.not_true] at hprop
                  exact absurd (h v1 hmem).2.2 (by rw [hprop]; simp)
            | none =>
                have hallr : ∀ v ∈ vms, v.resumeOk = true := by
                  intro v hv
                  have := List.find?_eq_none.1 hr v hv
                  simpa using this
                constructor
                · intro _ v hv
                  exact ⟨hallp v hv, halls v hv, hallr v hv⟩
                · intro _
                  rfl

/-- C1 witness: a two-VM scenario where the second VM's snapshot-save
fails: resume is still issued to both VMs; and the all-success run has the
pause–save–resume trace shape. -/
theorem c1_witness :
    (CkEvent.resumeCmd "a" ∈
        (save_checkpoint [⟨"a", true, true, true⟩, ⟨"b", true, false, true⟩]
          "init").1 ∧
      CkEvent.resumeCmd "b" ∈
        (save_checkpoint [⟨"a", true, true, true⟩, ⟨"b", true, false, true⟩]
          "init").1) ∧
    (save_checkpoint [⟨"a", true, true, true⟩, ⟨"b", true, true, true⟩]
        "init").1 =
      [CkEvent.pauseCmd "a", CkEvent.pauseCmd "b", CkEvent.saveCmd "a" "init",
       CkEvent.saveCmd "b" "init", CkEvent.resumeCmd "a",
       CkEvent.resumeCmd "b"] := by
  refine ⟨⟨?_, ?_⟩, ?_⟩
  · exact (c1_save_checkpoint [⟨"a", true, true, true⟩, ⟨"b", true, false, true⟩]
      "init").1 ⟨"a", true, true, true⟩ (by decide)
  · exact (c1_save_checkpoint [⟨"a", true, true, true⟩, ⟨"b", true, false, true⟩]
      "init").1 ⟨"b", true, false, true⟩ (by decide)
  · have h := (c1_save_checkpoint [⟨"a", true, true, true⟩,
      ⟨"b", true, true, true⟩] "init").2.1 (by decide)
    simpa using h

/-! ## Claim C5: QMP response demultiplexing -/

/-- C5: while awaiting a QMP command response over a stream of parsed JSON
lines on which `event` and `return`/`error` keys do not collide (as QEMU
guarantees), every line with an `event` key is skipped, the first line
with a `return` or `error` key is returned as the response, and end of
stream before any such line is an error — so a `save_checkpoint` issued
while QEMU emits asynchronous events still correlates to the correct
reply. -/
theorem c5_qmp_demux (items : List QmpItem)
    (hwf : items.all wfQmpItem = true) :
    (items.find? isRespItem = none →
      read_qmp_response items = Except.error QmpError.eof) ∧
    (∀ m : QmpMsg, items.find? isRespItem = some (QmpItem.msg m) →
      read_qmp_response items = Except.ok m) := by
  induction items with
  | nil => simp [read_qmp_response, List.find?]
  | cons it rest ih =>
      rw [List.all_cons, Bool.and_eq_true] at hwf
      obtain ⟨hit, hrest⟩ := hwf
      specialize ih hrest
      cases it with
      | badLine => exact absurd hit (by simp [wfQmpItem])
      | msg m =>
          by_cases he : m.hasKey "event" = true
          · have hresp : (m.hasKey "return" || m.hasKey "error") = false := by
              unfold wfQmpItem at hit
              rw [Bool.not_eq_eq_eq_not, Bool.not_true, Bool.and_eq_false_iff]
                at hit
              rcases hit with hit | hit
              · exact absurd he (by rw [hit]; simp)
              · exact hit
            have hsig : isRespItem (QmpItem.msg m) = false := hresp
            have hread : read_qmp_response (QmpItem.msg m :: rest) =
                read_qmp_response rest := by
              unfold read_qmp_response
              rw [if_pos he]
              cases rest with
              | nil => rfl
              | cons it2 rest2 => cases it2 <;> rfl
            have hfind : (QmpItem.msg m :: rest).find? isRespItem =
                rest.find? isRespItem := by
              rw [List.find?_cons_of_neg _ (by simp [hsig])]
            rw [hread, hfind]
            exact ih
          · have hne : m.hasKey "event" = false := by
              cases hh : m.hasKey "event"
              · rfl
              · exact absurd hh he
            cases hr : (m.hasKey "return" || m.hasKey "error") with
            | true =>
                have hread : read_qmp_response (QmpItem.msg m :: rest) =
                    Except.ok m := by
                  unfold read_qmp_response
                  rw [if_neg (by simp [hne]), if_pos hr]
                have hfind : (QmpItem.msg m :: rest).find? isRespItem =
                    some (QmpItem.msg m) :=
                  List.find?_cons_of_pos _ (by simpa [isRespItem] using hr)
                rw [hread, hfind]
                constructor
                · intro h
                  exact absurd h (by simp)
                · intro m2 h
                  have : QmpItem.msg m = QmpItem.msg m2 := by
                    exact Option.some.inj h
                  rw [QmpItem.msg.injEq] at this
                  rw [this]
            | false =>
                have hread : read_qmp_response (QmpItem.msg m :: rest) =
                    read_qmp_response rest := by
                  unfold read_qmp_response
                  rw [if_neg (by simp [hne]), if_neg (by simp [hr])]
                  cases rest with
                  | nil => rfl
                  | cons it2 rest2 => cases it2 <;> rfl
                have hfind : (QmpItem.msg m :: rest).find? isRespItem =
                    rest.find? isRespItem :=
                  List.find?_cons_of_neg _ (by simpa [isRespItem] using hr)
                rw [hread, hfind]
                exact ih

/-- C5 witness: an asynchronous event line before the reply is skipped;
a stream that ends with only event lines is an EOF error. -/
theorem c5_witness :
    read_qmp_response
        [QmpItem.msg ⟨["event"], 0⟩, QmpItem.msg ⟨["return"], 1⟩] =
      Except.ok ⟨["return"], 1⟩ ∧
    read_qmp_response [QmpItem.msg ⟨["event"], 0⟩] =
      Except.error QmpError.eof :=
  ⟨(c5_qmp_demux [QmpItem.msg ⟨["event"], 0⟩, QmpItem.msg ⟨["return"], 1⟩]
      (by decide)).2 ⟨["return"], 1⟩ (by decide),
   (c5_qmp_demux [QmpItem.msg ⟨["event"], 0⟩] (by decide)).1 (by decide)⟩

/-! ## Claim C6: agent request/response loop -/

theorem matches_respError (expected : ExpectedResponse) (m : String) :
    expected.matches (Response.respError m) = false := by
  cases expected <;> rfl

theorem recvLoop_cons_blank (expected : ExpectedResponse) (t c : Nat)
    (rest : List (Nat × LineEv)) (h30 : ¬30 ≤ t) (hc : ¬30 - t < c) :
    recvLoop expected t ((c, LineEv.blank) :: rest) =
      recvLoop expected (t + c) rest := by
  unfold recvLoop
  rw [if_neg h30, if_neg hc]
  cases rest with
  | nil => rfl
  | cons e2 rest2 =>
      obtain ⟨c2, ev2⟩ := e2
      cases ev2 <;> rfl

theorem recvLoop_cons_error (expected : ExpectedResponse) (t c : Nat)
    (m : String) (rest : List (Nat × LineEv)) (h30 : ¬30 ≤ t)
    (hc : ¬30 - t < c) :
    recvLoop expected t ((c, LineEv.msg (Response.respError m)) :: rest) =
      RecvResult.errSerial m := by
  unfold recvLoop
  rw [if_neg h30, if_neg hc]

theorem recvLoop_cons_resp (expected : ExpectedResponse) (t c : Nat)
    (r : Response) (rest : List (Nat × LineEv)) (h30 : ¬30 ≤ t)
    (hc : ¬30 - t < c) (hm : expected.matches r = true) :
    recvLoop expected t ((c, LineEv.msg r) :: rest) = RecvResult.ok r := by
  cases r with
  | respError m => rw [matches_respError] at hm; exact absurd hm (by simp)
  | probeResult i p ms =>
      unfold recvLoop
      rw [if_neg h30, if_neg hc]
      simp [hm]
  | allResults rs =>
      unfold recvLoop
      rw [if_neg h30, if_neg hc]
      simp [hm]
  | pong u =>
      unfold recvLoop
      rw [if_neg h30, if_neg hc]
      simp [hm]

theorem recvLoop_cons_nomatch (expected : ExpectedResponse) (t c : Nat)
    (r : Response) (rest : List (Nat × LineEv)) (h30 : ¬30 ≤ t)
    (hc : ¬30 - t < c) (herr : ∀ m, r ≠ Response.respError m)
    (hm : expected.matches r = false) :
    recvLoop expected t ((c, LineEv.msg r) :: rest) =
      recvLoop expected (t + c) rest := by
  have hrest : ∀ t2, recvLoop expected t2 rest =
      recvLoop expected t2 rest := fun _ => rfl
  cases r with
  | respError m => exact absurd rfl (herr m)
  | probeResult i p ms =>
      unfold recvLoop
      rw [if_neg h30, if_neg hc]
      simp only [hm, Bool.false_eq_true, if_false]
      cases rest with
      | nil => rfl
      | cons e2 rest2 =>
          obtain ⟨c2, ev2⟩ := e2
          cases ev2 <;> rfl
  | allResults rs =>
      unfold recvLoop
      rw [if_neg h30, if_neg hc]
      simp only [hm, Bool.false_eq_true, if_false]
      cases rest with
      | nil => rfl
      | cons e2 rest2 =>
          obtain ⟨c2, ev2⟩ := e2
          cases ev2 <;> rfl
  | pong u =>
      unfold recvLoop
      rw [if_neg h30, if_neg hc]
      simp only [hm, Bool.false_eq_true, if_false]
      cases rest with
      | nil => rfl
      | cons e2 rest2 =>
          obtain ⟨c2, ev2⟩ := e2
          cases ev2 <;> rfl

theorem sigEv_msg (expected : ExpectedResponse) (c : Nat) (r : Response)
    (herr : ∀ m, r ≠ Response.respError m) :
    sigEv expected (c, LineEv.msg r) = expected.matches r := by
  cases r with
  | respError m => exact absurd rfl (herr m)
  | probeResult i p ms => rfl
  | allResults rs => rfl
  | pong u => rfl

/-- C6: the receive loop of the agent client (`send_request_expect`):
(1) once 30 seconds have elapsed the result is a timeout, (2) a read that
does not complete within the remaining deadline is a timeout, and (3) on a
stream of timely reads (blank or parsed-response lines whose total read
time fits the deadline) the loop skips empty lines, fails with the error
message as soon as it reads an `error` response, returns the first
response matching the request's tag, and times out if the stream offers no
error and no matching response. -/
theorem c6_send_request_expect (expected : ExpectedResponse) :
    (∀ (t : Nat) (evs : List (Nat × LineEv)), 30 ≤ t →
      recvLoop expected t evs = RecvResult.errTimeout) ∧
    (∀ (t c : Nat) (ev : LineEv) (rest : List (Nat × LineEv)),
      ¬30 ≤ t → 30 - t < c →
      recvLoop expected t ((c, ev) :: rest) = RecvResult.errTimeout) ∧
    (∀ (t : Nat) (evs : List (Nat × LineEv)),
      evs.all wfLineEv = true →
      (evs.map Prod.fst).sum < 30 - t →
      (evs.find? (sigEv expected) = none →
        recvLoop expected t evs = RecvResult.errTimeout) ∧
      (∀ (c : Nat) (m : String),
        evs.find? (sigEv expected) =
            some (c, LineEv.msg (Response.respError m)) →
        recvLoop expected t evs = RecvResult.errSerial m) ∧
      (∀ (c : Nat) (r : Response),
        evs.find? (sigEv expected) = some (c, LineEv.msg r) →
        expected.matches r = true →
        recvLoop expected t evs = RecvResult.ok r)) := by
  refine ⟨?_, ?_, ?_⟩
  · intro t evs h30
    cases evs with
    | nil => rfl
    | cons e rest =>
        obtain ⟨c, ev⟩ := e
        unfold recvLoop
        rw [if_pos h30]
  · intro t c ev rest h30 hc
    unfold recvLoop
    rw [if_neg h30, if_pos hc]
  · intro t evs
    induction evs generalizing t with
    | nil =>
        intro _ _
        refine ⟨fun _ => rfl, ?_, ?_⟩
        · intro c m h
          exact absurd h (by simp)
        · intro c r h _
          exact absurd h (by simp)
    | cons e rest ih =>
        intro hwf hsum
        obtain ⟨c, ev⟩ := e
        rw [List.all_cons, Bool.and_eq_true] at hwf
        obtain ⟨hev, hwfrest⟩ := hwf
        rw [List.map_cons, List.sum_cons] at hsum
        have h30 : ¬30 ≤ t := by omega
        have hc : ¬30 - t < c := by omega
        have hsum2 : ((rest.map Prod.fst).sum) < 30 - (t + c) := by omega
        cases ev with
        | eofLine => exact absurd hev (by simp [wfLineEv])
        | ioErr => exact absurd hev (by simp [wfLineEv])
        | malformed => exact absurd hev (by simp [wfLineEv])
        | blank =>
            have hstep := recvLoop_cons_blank expected t c rest h30 hc
            have hfind : ((c, LineEv.blank) :: rest).find? (sigEv expected) =
                rest.find? (sigEv expected) :=
              List.find?_cons_of_neg _ (by simp [sigEv])
            rw [hstep, hfind]
            exact ih (t + c) hwfrest hsum2
        | msg r =>
            by_cases herr : ∃ m, r = Response.respError m
            · obtain ⟨m, rfl⟩ := herr
              have hstep := recvLoop_cons_error expected t c m rest h30 hc
              have hfind :
                  ((c, LineEv.msg (Response.respError m)) :: rest).find?
                      (sigEv expected) =
                    some (c, LineEv.msg (Response.respError m)) :=
                List.find?_cons_of_pos _ (by rfl)
              rw [hstep, hfind]
              refine ⟨?_, ?_, ?_⟩
              · intro h
                exact absurd h (by simp)
              · intro c2 m2 h
                obtain ⟨h1, h2⟩ := Prod.mk.inj (Option.some.inj h)
                rw [LineEv.msg.injEq, Response.respError.injEq] at h2
                rw [h2]
              · intro c2 r2 h hm2
                obtain ⟨h1, h2⟩ := Prod.mk.inj (Option.some.inj h)
                rw [LineEv.msg.injEq] at h2
                rw [← h2, matches_respError] at hm2
                exact absurd hm2 (by simp)
            · push_neg at herr
              have hsig := sigEv_msg expected c r herr
              cases hm : expected.matches r with
              | true =>
                  have hstep := recvLoop_cons_resp expected t c r rest h30 hc hm
                  have hfind : ((c, LineEv.msg r) :: rest).find?
                      (sigEv expected) = some (c, LineEv.msg r) :=
                    List.find?_cons_of_pos _ (by rw [hsig]; exact hm)
                  rw [hstep, hfind]
                  refine ⟨?_, ?_, ?_⟩
                  · intro h
                    exact absurd h (by simp)
                  · intro c2 m2 h
                    obtain ⟨h1, h2⟩ := Prod.mk.inj (Option.some.inj h)
                    rw [LineEv.msg.injEq] at h2
                    exact absurd h2 (herr m2)
                  · intro c2 r2 h hm2
                    obtain ⟨h1, h2⟩ := Prod.mk.inj (Option.some.inj h)
                    rw [LineEv.msg.injEq] at h2
                    rw [← h2]
              | false =>
                  have hstep := recvLoop_cons_nomatch expected t c r rest h30 hc
                    herr hm
                  have hfind : ((c, LineEv.msg r) :: rest).find?
                      (sigEv expected) = rest.find? (sigEv expected) :=
                    List.find?_cons_of_neg _ (by rw [hsig]; simp [hm])
                  rw [hstep, hfind]
                  exact ih (t + c) hwfrest hsum2

/-- C6 witness: a blank line then a mismatched response are skipped, the
matching pong is returned; with a late stream the deadline fires. -/
theorem c6_witness :
    recvLoop ExpectedResponse.pong 0
        [(1, LineEv.blank), (2, LineEv.msg (Response.allResults [])),
         (3, LineEv.msg (Response.pong 7))] =
      RecvResult.ok (Response.pong 7) ∧
    recvLoop ExpectedResponse.pong 0 [(31, LineEv.msg (Response.pong 7))] =
      RecvResult.errTimeout :=
  ⟨((c6_send_request_expect ExpectedResponse.pong).2.2 0
      [(1, LineEv.blank), (2, LineEv.msg (Response.allResults [])),
       (3, LineEv.msg (Response.pong 7))] (by decide) (by decide)).2.2 3
      (Response.pong 7) (by decide) (by decide),
   (c6_send_request_expect ExpectedResponse.pong).2.1 0 31
      (LineEv.msg (Response.pong 7)) [] (by decide) (by decide)⟩

/-! ## Claim C8: ProbeSpec JSON round-trip -/

theorem decodeProbeSpec_tag_file_content (o : JObj)
    (h : getStr o "type" = some "file_content") :
    decodeProbeSpec o = decodeFileContent o := by
  unfold decodeProbeSpec
  rw [h]
  rfl

theorem decodeProbeSpec_tag_file_exists (o : JObj)
    (h : getStr o "type" = some "file_exists") :
    decodeProbeSpec o = decodeFileExists o := by
  unfold decodeProbeSpec
  rw [h]
  rfl

theorem decodeProbeSpec_tag_service (o : JObj)
    (h : getStr o "type" = some "service") :
    decodeProbeSpec o = decodeService o := by
  unfold decodeProbeSpec
  rw [h]
  rfl

theorem decodeProbeSpec_tag_port (o : JObj)
    (h : getStr o "type" = some "port") :
    decodeProbeSpec o = decodePort o := by
  unfold decodeProbeSpec
  rw [h]
  rfl

theorem decodeProbeSpec_tag_command (o : JObj)
    (h : getStr o "type" = some "command") :
    decodeProbeSpec o = decodeCommand o := by
  unfold decodeProbeSpec
  rw [h]
  rfl

theorem decodeProbeSpec_tag_http (o : JObj)
    (h : getStr o "type" = some "http") :
    decodeProbeSpec o = decodeHttp o := by
  unfold decodeProbeSpec
  rw [h]
  rfl

theorem decodeProbeSpec_tag_k8s_nodes_ready (o : JObj)
    (h : getStr o "type" = some "k8s_nodes_ready") :
    decodeProbeSpec o = decodeK8sNodesReady o := by
  unfold decodeProbeSpec
  rw [h]
  rfl

theorem decodeProbeSpec_tag_k8s_endpoints (o : JObj)
    (h : getStr o "type" = some "k8s_endpoints_non_empty") :
    decodeProbeSpec o = decodeK8sEndpointsNonEmpty o := by
  unfold decodeProbeSpec
  rw [h]
  rfl

theorem decodeProbeSpec_tag_tcp_ping (o : JObj)
    (h : getStr o "type" = some "tcp_ping") :
    decodeProbeSpec o = decodeTcpPing o := by
  unfold decodeProbeSpec
  rw [h]
  rfl

theorem decodeFileContent_fields (o : JObj) (path : String)
    (contains regex : Option String)
    (k1 : getStr o "path" = some path)
    (k2 : getOptStr o "contains" = some contains)
    (k3 : getOptStr o "regex" = some regex) :
    decodeFileContent o = some (ProbeSpec.fileContent path contains regex) := by
  unfold decodeFileContent
  rw [k1, k2, k3]

theorem decodeFileExists_fields (o : JObj) (path : String) (e : Bool)
    (k1 : getStr o "path" = some path)
    (k2 : getBool o "exists" = some e) :
    decodeFileExists o = some (ProbeSpec.fileExists path e) := by
  unfold decodeFileExists
  rw [k1, k2]

theorem decodeService_fields (o : JObj) (svc : String) (st : ServiceState)
    (k1 : getStr o "service" = some svc)
    (k2 : getStr o "state" = some (encodeServiceState st)) :
    decodeService o = some (ProbeSpec.service svc st) := by
  unfold decodeService
  rw [k1, k2]
  cases st <;> rfl

theorem decodePort_fields (o : JObj) (p : Nat) (st : PortState)
    (proto : Protocol)
    (k1 : getUInt o "port" 16 = some p)
    (k2 : getStr o "state" = some (encodePortState st))
    (k3 : o.lookup "protocol" = some (JVal.jstr (encodeProtocol proto))) :
    decodePort o = some (ProbeSpec.port p st proto) := by
  unfold decodePort
  rw [k1, k2, k3]
  cases st <;> cases proto <;> rfl

theorem decodePort_default (o : JObj) (p : Nat) (st : PortState)
    (k1 : getUInt o "port" 16 = some p)
    (k2 : getStr o "state" = some (encodePortState st))
    (k3 : o.lookup "protocol" = none) :
    decodePort o = some (ProbeSpec.port p st default_protocol) := by
  unfold decodePort
  rw [k1, k2, k3]
  cases st <;> rfl

theorem decodeCommand_fields (o : JObj) (cmd : String) (ec : Int)
    (sc : Option String)
    (k1 : getStr o "cmd" = some cmd)
    (k2 : getI32 o "exit_code" = some ec)
    (k3 : getOptStr o "stdout_contains" = some sc) :
    decodeCommand o = some (ProbeSpec.command cmd ec sc) := by
  unfold decodeCommand
  rw [k1, k2, k3]

theorem decodeHttp_fields (o : JObj) (url : String) (status : Nat)
    (bc : Option String)
    (k1 : getStr o "url" = some url)
    (k2 : getUInt o "status" 16 = some status)
    (k3 : getOptStr o "body_contains" = some bc) :
    decodeHttp o = some (ProbeSpec.http url status bc) := by
  unfold decodeHttp
  rw [k1, k2, k3]

theorem decodeK8sNodesReady_fields (o : JObj) (er : Nat)
    (kc ctx : Option String)
    (k1 : getUInt o "expected_ready" 32 = some er)
    (k2 : getOptStr o "kubeconfig" = some kc)
    (k3 : getOptStr o "context" = some ctx) :
    decodeK8sNodesReady o = some (ProbeSpec.k8sNodesReady er kc ctx) := by
  unfold decodeK8sNodesReady
  rw [k1, k2, k3]

theorem decodeK8sEndpointsNonEmpty_fields (o : JObj) (ns nm : String)
    (kc ctx : Option String)
    (k1 : getStr o "namespace" = some ns)
    (k2 : getStr o "name" = some nm)
    (k3 : getOptStr o "kubeconfig" = some kc)
    (k4 : getOptStr o "context" = some ctx) :
    decodeK8sEndpointsNonEmpty o =
      some (ProbeSpec.k8sEndpointsNonEmpty ns nm kc ctx) := by
  unfold decodeK8sEndpointsNonEmpty
  rw [k1, k2, k3, k4]

theorem decodeTcpPing_fields (o : JObj) (host : String) (p tm : Nat)
    (st : ReachabilityState)
    (k1 : getStr o "host" = some host)
    (k2 : getUIntD o "port" 16 default_tcp_ping_port = some p)
    (k3 : getUIntD o "timeout_ms" 64 default_tcp_ping_timeout_ms = some tm)
    (k4 : o.lookup "state" = some (JVal.jstr (encodeReachabilityState st))) :
    decodeTcpPing o = some (ProbeSpec.tcpPing host p tm st) := by
  unfold decodeTcpPing
  rw [k1, k2, k3, k4]
  cases st <;> rfl

/-- C8: serde round-trip for every `ProbeSpec` variant: decoding the
encoding yields the original value (for field values within their machine
integer ranges, which Rust's types guarantee); and decoding a `port`
probe whose JSON omits the `protocol` field defaults it to `tcp`. -/
theorem c8_probe_spec_roundtrip :
    (∀ spec : ProbeSpec, spec.wf →
      decodeProbeSpec (encodeProbeSpec spec) = some spec) ∧
    (∀ (p : Nat) (st : PortState), p < 2 ^ 16 →
      decodeProbeSpec
          [("type", JVal.jstr "port"), ("port", JVal.jnum p),
           ("state", JVal.jstr (encodePortState st))] =
        some (ProbeSpec.port p st default_protocol)) := by
  constructor
  · intro spec hwf
    cases spec with
    | fileContent path contains regex =>
        cases contains <;> cases regex <;>
          exact (decodeProbeSpec_tag_file_content _
              (by simp [encodeProbeSpec, getStr, List.lookup])).trans
            (decodeFileContent_fields _ _ _ _
              (by simp [encodeProbeSpec, optField, getStr, List.lookup])
              (by simp [encodeProbeSpec, optField, getOptStr, List.lookup])
              (by simp [encodeProbeSpec, optField, getOptStr, List.lookup]))
    | fileExists path e =>
        exact (decodeProbeSpec_tag_file_exists _
            (by simp [encodeProbeSpec, getStr, List.lookup])).trans
          (decodeFileExists_fields _ _ _
            (by simp [encodeProbeSpec, getStr, List.lookup])
            (by simp [encodeProbeSpec, getBool, List.lookup]))
    | service svc st =>
        exact (decodeProbeSpec_tag_service _
            (by simp [encodeProbeSpec, getStr, List.lookup])).trans
          (decodeService_fields _ _ st
            (by simp [encodeProbeSpec, getStr, List.lookup])
            (by simp [encodeProbeSpec, getStr, List.lookup]))
    | port p st proto =>
        have hp : p < 65536 := hwf
        exact (decodeProbeSpec_tag_port _
            (by simp [encodeProbeSpec, getStr, List.lookup])).trans
          (decodePort_fields _ p st proto
            (by simp [encodeProbeSpec, getUInt, List.lookup, hp])
            (by simp [encodeProbeSpec, getStr, List.lookup])
            (by simp [encodeProbeSpec, List.lookup]))
    | command cmd ec sc =>
        have h1 : -2147483648 ≤ ec := hwf.1
        have h2 : ec < 2147483648 := hwf.2
        cases sc <;>
          exact (decodeProbeSpec_tag_command _
              (by simp [encodeProbeSpec, getStr, List.lookup])).trans
            (decodeCommand_fields _ _ ec _
              (by simp [encodeProbeSpec, optField, getStr, List.lookup])
              (by simp [encodeProbeSpec, optField, getI32, List.lookup, h1, h2])
              (by simp [encodeProbeSpec, optField, getOptStr, List.lookup]))
    | http url status bc =>
        have hs : status < 65536 := hwf
        cases bc <;>
          exact (decodeProbeSpec_tag_http _
              (by simp [encodeProbeSpec, getStr, List.lookup])).trans
            (decodeHttp_fields _ _ status _
              (by simp [encodeProbeSpec, optField, getStr, List.lookup])
              (by simp [encodeProbeSpec, optField, getUInt, List.lookup, hs])
              (by simp [encodeProbeSpec, optField, getOptStr, List.lookup]))
    | k8sNodesReady er kc ctx =>
        have her : er < 4294967296 := hwf
        cases kc <;> cases ctx <;>
          exact (decodeProbeSpec_tag_k8s_nodes_ready _
              (by simp [encodeProbeSpec, getStr, List.lookup])).trans
            (decodeK8sNodesReady_fields _ er _ _
              (by simp [encodeProbeSpec, optField, getUInt, List.lookup, her])
              (by simp [encodeProbeSpec, optField, getOptStr, List.lookup])
              (by simp [encodeProbeSpec, optField, getOptStr, List.lookup]))
    | k8sEndpointsNonEmpty ns nm kc ctx =>
        cases kc <;> cases ctx <;>
          exact (decodeProbeSpec_tag_k8s_endpoints _
              (by simp [encodeProbeSpec, getStr, List.lookup])).trans
            (decodeK8sEndpointsNonEmpty_fields _ _ _ _ _
              (by simp [encodeProbeSpec, optField, getStr, List.lookup])
              (by simp [encodeProbeSpec, optField, getStr, List.lookup])
              (by simp [encodeProbeSpec, optField, getOptStr, List.lookup])
              (by simp [encodeProbeSpec, optField, getOptStr, List.lookup]))
    | tcpPing host p tm st =>
        have hp : p < 65536 := hwf.1
        have ht : tm < 18446744073709551616 := hwf.2
        exact (decodeProbeSpec_tag_tcp_ping _
            (by simp [encodeProbeSpec, getStr, List.lookup])).trans
          (decodeTcpPing_fields _ _ p tm st
            (by simp [encodeProbeSpec, getStr, List.lookup])
            (by simp [encodeProbeSpec, getUIntD, List.lookup, hp])
            (by simp [encodeProbeSpec, getUIntD, List.lookup, ht])
            (by simp [encodeProbeSpec, List.lookup]))
  · intro p st hp
    have hp2 : p < 65536 := hp
    exact (decodeProbeSpec_tag_port _ (by simp [getStr, List.lookup])).trans
      (decodePort_default _ p st
        (by simp [getUInt, List.lookup, hp2])
        (by simp [getStr, List.lookup])
        (by simp [List.lookup]))

/-- C8 witness: both halves at concrete inputs: a `tcp_ping` spec
round-trips, and a protocol-less `port` object decodes with the `tcp`
default. -/
theorem c8_witness :
    decodeProbeSpec (encodeProbeSpec
        (ProbeSpec.tcpPing "k3s-1" 6443 2000 ReachabilityState.reachable)) =
      some (ProbeSpec.tcpPing "k3s-1" 6443 2000 ReachabilityState.reachable) ∧
    decodeProbeSpec
        [("type", JVal.jstr "port"), ("port", JVal.jnum 80),
         ("state", JVal.jstr (encodePortState PortState.listening))] =
      some (ProbeSpec.port 80 PortState.listening default_protocol) :=
  ⟨c8_probe_spec_roundtrip.1
      (ProbeSpec.tcpPing "k3s-1" 6443 2000 ReachabilityState.reachable)
      (by constructor <;> decide),
   c8_probe_spec_roundtrip.2 80 PortState.listening (by decide)⟩

/-! ## Claim C9: completing a scenario with no scenario-phase probes -/

theorem collectProbes_no_scenario (scen : Scenario) :
    ∀ names : List String,
      (∀ p ∈ names, ∀ d, scen.probes.lookup p = some d →
        d.phase ≠ ProbePhase.scenario) →
      (collectProbes scen ProbePhase.scenario names).1 = [] ∧
      ∀ f ∈ (collectProbes scen ProbePhase.scenario names).2,
        f.passed = false ∧ f.id ∈ names := by
  intro names
  induction names with
  | nil => intro _; exact ⟨rfl, by simp [collectProbes]⟩
  | cons n rest ih =>
      intro h
      have hrest := ih fun p hp d hd =>
        h p (List.mem_cons_of_mem n hp) d hd
      cases hl : scen.probes.lookup n with
      | none =>
          simp only [collectProbes, hl]
          refine ⟨hrest.1, ?_⟩
          intro f hf
          rcases List.mem_cons.1 hf with hf | hf
          · rw [hf]
            exact ⟨rfl, List.mem_cons_self n rest⟩
          · exact ⟨(hrest.2 f hf).1,
              List.mem_cons_of_mem n (hrest.2 f hf).2⟩
      | some d =>
          have hph : d.phase ≠ ProbePhase.scenario :=
            h n (List.mem_cons_self n rest) d hl
          simp only [collectProbes, hl]
          rw [if_pos hph]
          exact ⟨hrest.1, fun f hf => ⟨(hrest.2 f hf).1,
            List.mem_cons_of_mem n (hrest.2 f hf).2⟩⟩

theorem processVm_no_scenario (scen : Scenario) (oracle : AgentOracle)
    (results : ProbeResults) (vmName : String)
    (h : ∀ p ∈ probesOf scen vmName, ∀ d, scen.probes.lookup p = some d →
      d.phase ≠ ProbePhase.scenario) :
    processVm scen ProbePhase.scenario oracle results vmName =
      updateResults vmName
        (insertResults
          (collectProbes scen ProbePhase.scenario (probesOf scen vmName)).2)
        results := by
  simp only [processVm]
  rw [(collectProbes_no_scenario scen (probesOf scen vmName) h).1]
  rfl

theorem mem_mapInsert {κ α : Type} [DecidableEq κ] (k : κ) (v : α) :
    ∀ (m : List (κ × α)) (kv : κ × α),
      kv ∈ mapInsert k v m → kv = (k, v) ∨ kv ∈ m := by
  intro m
  induction m with
  | nil => intro kv h; simpa [mapInsert] using h
  | cons kv0 rest ih =>
      intro kv h
      obtain ⟨k0, v0⟩ := kv0
      unfold mapInsert at h
      by_cases hk : k0 = k
      · rw [if_pos hk] at h
        rcases List.mem_cons.1 h with h | h
        · exact Or.inl h
        · exact Or.inr (List.mem_cons_of_mem _ h)
      · rw [if_neg hk] at h
        rcases List.mem_cons.1 h with h | h
        · exact Or.inr (by rw [h]; exact List.mem_cons_self _ _)
        · rcases ih kv h with h | h
          · exact Or.inl h
          · exact Or.inr (List.mem_cons_of_mem _ h)

theorem mem_insertResults :
    ∀ (rs : List ProbeResult) (m : VmResults) (kv : String × ProbeResult),
      kv ∈ insertResults rs m → kv ∈ m ∨ kv.2 ∈ rs := by
  intro rs
  induction rs with
  | nil => intro m kv h; exact Or.inl h
  | cons r rest ih =>
      intro m kv h
      have h2 : kv ∈ insertResults rest (mapInsert r.id r m) := h
      rcases ih _ kv h2 with h3 | h3
      · rcases mem_mapInsert r.id r m kv h3 with h4 | h4
        · exact Or.inr (by rw [h4]; exact List.mem_cons_self r rest)
        · exact Or.inl h4
      · exact Or.inr (List.mem_cons_of_mem r h3)

theorem updateResults_goodness (P : String × ProbeResult → Prop)
    (vmName : String) (f : VmResults → VmResults)
    (hf : ∀ m : VmResults, (∀ kv ∈ m, P kv) → ∀ kv ∈ f m, P kv) :
    ∀ results : ProbeResults,
      (∀ pr ∈ results, ∀ kv ∈ pr.2, P kv) →
      ∀ pr ∈ updateResults vmName f results, ∀ kv ∈ pr.2, P kv := by
  intro results
  induction results with
  | nil =>
      intro _ pr h
      rw [updateResults] at h
      exact absurd h (List.not_mem_nil pr)
  | cons pr0 rest ih =>
      intro hres pr hpr
      obtain ⟨k0, m0⟩ := pr0
      unfold updateResults at hpr
      by_cases hk : k0 = vmName
      · rw [if_pos hk] at hpr
        rcases List.mem_cons.1 hpr with hpr | hpr
        · intro kv hkv
          rw [hpr] at hkv
          exact hf m0 (hres (k0, m0) (List.mem_cons_self _ _)) kv hkv
        · exact hres pr (List.mem_cons_of_mem _ hpr)
      · rw [if_neg hk] at hpr
        rcases List.mem_cons.1 hpr with hpr | hpr
        · intro kv hkv
          rw [hpr] at hkv
          exact hres (k0, m0) (List.mem_cons_self _ _) kv hkv
        · exact ih (fun q hq => hres q (List.mem_cons_of_mem _ hq)) pr hpr

theorem foldl_processVm_goodness (scen : Scenario) (oracle : AgentOracle)
    (hno : ∀ vm ∈ scen.vms, ∀ p ∈ vm.probes, ∀ d,
      scen.probes.lookup p = some d → d.phase ≠ ProbePhase.scenario) :
    ∀ (vmNames : List String) (results : ProbeResults),
      (∀ pr ∈ results, ∀ kv ∈ pr.2,
        kv.2.passed = false ∨ ∀ d, scen.probes.lookup kv.2.id = some d →
          d.phase ≠ ProbePhase.scenario) →
      ∀ pr ∈ vmNames.foldl (processVm scen ProbePhase.scenario oracle) results,
        ∀ kv ∈ pr.2,
          kv.2.passed = false ∨ ∀ d, scen.probes.lookup kv.2.id = some d →
            d.phase ≠ ProbePhase.scenario := by
  have hsub : ∀ vmName : String, ∀ p ∈ probesOf scen vmName, ∀ d,
      scen.probes.lookup p = some d → d.phase ≠ ProbePhase.scenario := by
    intro vmName p hp d hd
    unfold probesOf at hp
    cases hfind : scen.vms.find? (fun v => v.name == vmName) with
    | none => rw [hfind] at hp; simp at hp
    | some vm =>
        rw [hfind] at hp
        simp at hp
        exact hno vm (List.mem_of_find?_eq_some hfind) p hp d hd
  intro vmNames
  induction vmNames with
  | nil => intro results hres; exact hres
  | cons vmName rest ih =>
      intro results hres
      rw [List.foldl_cons]
      apply ih
      rw [processVm_no_scenario scen oracle results vmName (hsub vmName)]
      apply updateResults_goodness _ vmName _ ?_ results hres
      intro m hm kv hkv
      rcases mem_insertResults _ m kv hkv with h | h
      · exact hm kv h
      · exact Or.inl
          ((collectProbes_no_scenario scen (probesOf scen vmName)
            (hsub vmName)).2 kv.2 h).1

/-- C9: if no VM of the scenario references a probe whose definition has
phase `scenario` (in particular when the scenario has no probes at all),
then `all_scenario_probes_passing` is vacuously true and a single
`check_probes` call sets the scenario state to `Completed`, whatever state
the runner was in before.  (The invariant hypothesis on `probe_results` —
every recorded result belongs to a probe the scenario assigns to that VM —
is exactly what `check_probes_phase` itself maintains.) -/
theorem c9_check_probes_completes (r : RunnerSt) (oracle : AgentOracle)
    (hno : ∀ vm ∈ r.scenario.vms, ∀ p ∈ vm.probes, ∀ d,
      r.scenario.probes.lookup p = some d → d.phase ≠ ProbePhase.scenario)
    (hinv : ∀ pr ∈ r.probe_results, ∀ kv ∈ pr.2,
      kv.2.id ∈ probesOf r.scenario pr.1) :
    (check_probes oracle r).state = ScenarioState.completed ∧
    all_scenario_probes_passing r.scenario
      (check_probes oracle r).probe_results = true := by
  have hsub : ∀ vmName : String, ∀ p ∈ probesOf r.scenario vmName, ∀ d,
      r.scenario.probes.lookup p = some d → d.phase ≠ ProbePhase.scenario := by
    intro vmName p hp d hd
    unfold probesOf at hp
    cases hfind : r.scenario.vms.find? (fun v => v.name == vmName) with
    | none => rw [hfind] at hp; simp at hp
    | some vm =>
        rw [hfind] at hp
        simp at hp
        exact hno vm (List.mem_of_find?_eq_some hfind) p hp d hd
  have hgood : ∀ pr ∈ r.vmNames.foldl
      (processVm r.scenario ProbePhase.scenario oracle) r.probe_results,
      ∀ kv ∈ pr.2,
        kv.2.passed = false ∨ ∀ d, r.scenario.probes.lookup kv.2.id = some d →
          d.phase ≠ ProbePhase.scenario := by
    apply foldl_processVm_goodness r.scenario oracle hno r.vmNames
      r.probe_results
    intro pr hpr kv hkv
    by_cases hpass : kv.2.passed = false
    · exact Or.inl hpass
    · exact Or.inr (hsub pr.1 kv.2.id (hinv pr hpr kv hkv))
  have hpassing : ∀ results : ProbeResults,
      (∀ pr ∈ results, ∀ kv ∈ pr.2,
        kv.2.passed = false ∨ ∀ d, r.scenario.probes.lookup kv.2.id = some d →
          d.phase ≠ ProbePhase.scenario) →
      all_scenario_probes_passing r.scenario results = true := by
    intro results hres
    unfold all_scenario_probes_passing
    rw [List.all_eq_true]
    intro vr hvr
    have hexp : ((probesOf r.scenario vr.1).filter fun p =>
        match r.scenario.probes.lookup p with
        | some d => d.phase == ProbePhase.scenario
        | none => false) = [] := by
      rw [List.filter_eq_nil_iff]
      intro p hp
      cases hl : r.scenario.probes.lookup p with
      | none => simp [hl]
      | some d =>
          have hb : (d.phase == ProbePhase.scenario) = false := by
            simpa using hsub vr.1 p hp d hl
          simp [hl, hb]
    have hpass : (vr.2.filter fun kv =>
        kv.2.passed &&
          match r.scenario.probes.lookup kv.2.id with
          | some d => d.phase == ProbePhase.scenario
          | none => false) = [] := by
      rw [List.filter_eq_nil_iff]
      intro kv hkv
      rcases hres vr hvr kv hkv with h | h
      · simp [h]
      · cases hl : r.scenario.probes.lookup kv.2.id with
        | none => simp [hl]
        | some d =>
            have hb : (d.phase == ProbePhase.scenario) = false := by
              simpa using h d hl
            simp [hl, hb]
    simp only [hexp, hpass, List.length_nil]
    rfl
  have hall := hpassing _ hgood
  constructor
  · unfold check_probes check_probes_phase
    simp only [hall]
    rfl
  · unfold check_probes check_probes_phase
    exact hall

/-- C9 witness: a scenario with one VM and no probes: one `check_probes`
call completes the scenario from the `Running` state. -/
theorem c9_witness :
    (check_probes (fun _ _ => Except.error "unused")
        ⟨⟨[], [⟨"web", []⟩]⟩, ScenarioState.running, ["web"],
         [("web", [])]⟩).state = ScenarioState.completed :=
  (c9_check_probes_completes
    ⟨⟨[], [⟨"web", []⟩]⟩, ScenarioState.running, ["web"], [("web", [])]⟩
    (fun _ _ => Except.error "unused")
    (by intro vm hvm p hp d hd
        rcases List.mem_singleton.1 hvm with rfl
        exact absurd hp (List.not_mem_nil p))
    (by intro pr hpr kv hkv
        rcases List.mem_singleton.1 hpr with rfl
        exact absurd hkv (List.not_mem_nil kv))).1

/-- C10 witness: the invariants, the fallback, case-insensitivity and the
dropped-run collapse at concrete inputs. -/
theorem c10_witness :
    slugify "Break Nginx!!" ≠ "" ∧
    slugify (slugify "Break Nginx!!") = slugify "Break Nginx!!" ∧
    slugify "!!!" = "step" ∧
    slugify "Break-NGINX" = slugify "break-nginx" ∧
    slugify (String.mk ("a".toList ++ '!' :: '?' :: "b".toList)) =
      slugify (String.mk ("a".toList ++ '!' :: "b".toList)) :=
  ⟨(c10_slugify_invariants.1 "Break Nginx!!").1,
   (c10_slugify_invariants.1 "Break Nginx!!").2.2.2.1,
   (c10_slugify_invariants.1 "!!!").2.2.2.2 (by decide),
   c10_slugify_invariants.2.1 "Break-NGINX" "break-nginx" (by decide),
   c10_slugify_invariants.2.2 "a".toList "b".toList '!' '?' (by decide)
     (by decide)⟩
end Intar

